import Mathlib

/-!
Verification of the oligotools project-tree core (src/domain/entities.py,
src/data/project_repository.py, src/application/use_cases/file_use_cases.py).

Python dictionaries are modelled as insertion-ordered association lists
(Python dicts preserve insertion order); `datetime` values are modelled as
opaque strings (their `isoformat`/`fromisoformat` round-trip is the identity
on this representation); metadata dictionaries (`Dict[str, Any]`) are
modelled with string values.
-/

namespace Oligotools

/-! ### Python dict model: insertion-ordered association lists -/

namespace PyDict

/-- The keys of a dict, in insertion order (`d.keys()`). -/
def keys (l : List (String × α)) : List String := l.map (·.1)

/-- Python `k in d`. -/
def contains (l : List (String × α)) (k : String) : Bool := l.any (·.1 == k)

/-- Python `d[k]` lookup (None when absent models `KeyError`). -/
def get? (l : List (String × α)) (k : String) : Option α :=
  (l.find? (·.1 == k)).map (·.2)

/-- Python `d[k] = v`: replaces in place when the key exists, otherwise
appends at the end (insertion order). -/
def set (l : List (String × α)) (k : String) (v : α) : List (String × α) :=
  if contains l k then l.map (fun p => if p.1 == k then (k, v) else p)
  else l ++ [(k, v)]

/-- Python `del d[k]`. -/
def del (l : List (String × α)) (k : String) : List (String × α) :=
  l.filter (fun p => !(p.1 == k))

end PyDict

/-! ### Python string and pathlib helpers -/

/-- The whitespace characters stripped by Python `str.strip()`. -/
def pyIsSpace (c : Char) : Bool :=
  c == ' ' || c == '\t' || c == '\n' || c == '\r' || c == '\x0b' || c == '\x0c'

/-- Python `not s.strip()`: the string is empty or all whitespace. -/
def stripIsEmpty (s : String) : Bool := s.data.all pyIsSpace

/-- The reserved characters `'<>:"/\\|?*'` checked by `Folder.__post_init__`. -/
def invalidChars : List Char := ['<', '>', ':', '"', '/', '\\', '|', '?', '*']

/-- `any(char in name for char in invalid_chars)`. -/
def hasInvalidChar (s : String) : Bool := s.data.any (fun c => invalidChars.contains c)

/-- Index of the last `'.'` in the character list (`name.rfind('.')`). -/
def lastDotIdx (cs : List Char) : Option Nat :=
  match (cs.reverse).findIdx? (· == '.') with
  | none => none
  | some j => some (cs.length - 1 - j)

/-- `pathlib.PurePath(name).stem` and `.suffix` of a bare file name: split at
the final dot when it is neither the first nor the last character, else the
suffix is empty. -/
def pySplitExt (s : String) : String × String :=
  match lastDotIdx s.data with
  | none => (s, "")
  | some i =>
    if 0 < i ∧ i + 1 < s.data.length then (⟨s.data.take i⟩, ⟨s.data.drop i⟩)
    else (s, "")

/-- `Path(name).stem`. -/
def pyStem (s : String) : String := (pySplitExt s).1

/-- `Path(name).suffix`. -/
def pyExtSuffix (s : String) : String := (pySplitExt s).2

/-- Python `s.lower()` (character-wise, as for ASCII names). -/
def pyLower (s : String) : String := ⟨s.data.map Char.toLower⟩

/-- Python `s.lstrip('.')`. -/
def pyLstripDot (s : String) : String := ⟨s.data.dropWhile (· == '.')⟩

/-- `Path(self.name).suffix.lower().lstrip('.')`, the file-type inference in
`FileReference.__post_init__`. -/
def inferFileType (name : String) : String :=
  pyLstripDot (pyLower (pyExtSuffix name))

/-- Python `s.split('/')`: split at every `'/'`, keeping empty pieces. -/
def pySplitSlashAux : List Char → List Char → List String
  | [], acc => [⟨acc.reverse⟩]
  | c :: rest, acc =>
    if c = '/' then ⟨acc.reverse⟩ :: pySplitSlashAux rest []
    else pySplitSlashAux rest (c :: acc)

/-- Python `folder_path.split('/')`. -/
def pySplitSlash (s : String) : List String := pySplitSlashAux s.data []

/-! ### Domain exceptions (src/domain/exceptions.py) -/

inductive DomainErr where
  | projectError
  | folderError
  | fileReferenceError
  | duplicateNameError
  | itemNotFoundError
  | invalidPathError
deriving DecidableEq, Repr

/-! ### FileReference (src/domain/entities.py lines 18-77) -/

structure FileReference where
  id : String
  name : String
  original_path : String
  relative_path : String
  file_type : String
  size_bytes : Nat
  imported_date : String
  last_modified : String
  metadata : List (String × String)
deriving DecidableEq, Repr

/-- The `FileReference` dataclass constructor followed by `__post_init__`:
rejects an empty/whitespace name and an empty original path, and infers
`file_type` from the name's extension when it was not provided. -/
def FileReference.make (id name original_path relative_path file_type : String)
    (size_bytes : Nat) (imported_date last_modified : String)
    (metadata : List (String × String)) : Except DomainErr FileReference :=
  if stripIsEmpty name then .error .fileReferenceError
  else if original_path == "" then .error .fileReferenceError
  else .ok {
    id := id, name := name, original_path := original_path,
    relative_path := relative_path,
    file_type := if file_type == "" then inferFileType name else file_type,
    size_bytes := size_bytes, imported_date := imported_date,
    last_modified := last_modified, metadata := metadata }

/-! ### Folder (src/domain/entities.py lines 80-225) -/

inductive Folder where
  | node (id name created_date : String) (parent_id : Option String)
      (subfolders : List (String × Folder)) (files : List (String × FileReference)) : Folder
deriving Repr

def Folder.id : Folder → String
  | .node i _ _ _ _ _ => i

def Folder.name : Folder → String
  | .node _ n _ _ _ _ => n

def Folder.created_date : Folder → String
  | .node _ _ c _ _ _ => c

def Folder.parent_id : Folder → Option String
  | .node _ _ _ p _ _ => p

def Folder.subfolders : Folder → List (String × Folder)
  | .node _ _ _ _ s _ => s

def Folder.files : Folder → List (String × FileReference)
  | .node _ _ _ _ _ f => f

/-- `folder.parent_id = pid` (field assignment). -/
def Folder.withParent : Folder → Option String → Folder
  | .node i n c _ s f, p => .node i n c p s f

/-- `folder.name = n` (field assignment). -/
def Folder.withName : Folder → String → Folder
  | .node i _ c p s f, n => .node i n c p s f

def Folder.withSubfolders : Folder → List (String × Folder) → Folder
  | .node i n c p _ f, s => .node i n c p s f

def Folder.withFiles : Folder → List (String × FileReference) → Folder
  | .node i n c p s _, f => .node i n c p s f

/-- The `Folder` dataclass constructor followed by `__post_init__`: rejects
an empty/whitespace name and a name containing a reserved character. -/
def Folder.make (id name created_date : String) (parent_id : Option String)
    (subfolders : List (String × Folder)) (files : List (String × FileReference)) :
    Except DomainErr Folder :=
  if stripIsEmpty name then .error .folderError
  else if hasInvalidChar name then .error .folderError
  else .ok (.node id name created_date parent_id subfolders files)

/-- `Folder.add_subfolder` (lines 101-110).  Both raises precede the
mutation, so on error the returned state equals the input state. -/
def Folder.add_subfolder (self folder : Folder) : Folder × Option DomainErr :=
  if PyDict.contains self.subfolders folder.name then (self, some .duplicateNameError)
  else if PyDict.contains self.files folder.name then (self, some .duplicateNameError)
  else
    let folder' := folder.withParent (some self.id)
    (self.withSubfolders (PyDict.set self.subfolders folder.name folder'), none)

/-- `Folder.add_file` (lines 112-120). -/
def Folder.add_file (self : Folder) (file_ref : FileReference) : Folder × Option DomainErr :=
  if PyDict.contains self.files file_ref.name then (self, some .duplicateNameError)
  else if PyDict.contains self.subfolders file_ref.name then (self, some .duplicateNameError)
  else (self.withFiles (PyDict.set self.files file_ref.name file_ref), none)

/-- `Folder.remove_subfolder` (lines 122-130): detaches and returns the
subfolder with its parent link cleared. -/
def Folder.remove_subfolder (self : Folder) (folder_name : String) :
    Folder × Except DomainErr Folder :=
  match PyDict.get? self.subfolders folder_name with
  | none => (self, .error .itemNotFoundError)
  | some folder =>
    (self.withSubfolders (PyDict.del self.subfolders folder_name),
     .ok (folder.withParent none))

/-- `Folder.remove_file` (lines 132-139). -/
def Folder.remove_file (self : Folder) (file_name : String) :
    Folder × Except DomainErr FileReference :=
  match PyDict.get? self.files file_name with
  | none => (self, .error .itemNotFoundError)
  | some file_ref => (self.withFiles (PyDict.del self.files file_name), .ok file_ref)

/-- `Folder.get_subfolder` (lines 141-145). -/
def Folder.get_subfolder (self : Folder) (folder_name : String) : Except DomainErr Folder :=
  match PyDict.get? self.subfolders folder_name with
  | none => .error .itemNotFoundError
  | some folder => .ok folder

/-- `Folder.get_file` (lines 147-151). -/
def Folder.get_file (self : Folder) (file_name : String) : Except DomainErr FileReference :=
  match PyDict.get? self.files file_name with
  | none => .error .itemNotFoundError
  | some file_ref => .ok file_ref

/-- `Folder.rename_subfolder` (lines 153-164): the renamed entry is stored
under the new key and the old key is deleted. -/
def Folder.rename_subfolder (self : Folder) (old_name new_name : String) :
    Folder × Option DomainErr :=
  match PyDict.get? self.subfolders old_name with
  | none => (self, some .itemNotFoundError)
  | some folder =>
    if PyDict.contains self.subfolders new_name || PyDict.contains self.files new_name then
      (self, some .duplicateNameError)
    else
      (self.withSubfolders
        (PyDict.del (PyDict.set self.subfolders new_name (folder.withName new_name)) old_name),
       none)

/-- `Folder.rename_file` (lines 166-177). -/
def Folder.rename_file (self : Folder) (old_name new_name : String) :
    Folder × Option DomainErr :=
  match PyDict.get? self.files old_name with
  | none => (self, some .itemNotFoundError)
  | some file_ref =>
    if PyDict.contains self.files new_name || PyDict.contains self.subfolders new_name then
      (self, some .duplicateNameError)
    else
      (self.withFiles
        (PyDict.del (PyDict.set self.files new_name { file_ref with name := new_name }) old_name),
       none)

/-- `Folder.get_path_items` (lines 179-181). -/
def Folder.get_path_items (self : Folder) : List String :=
  PyDict.keys self.subfolders ++ PyDict.keys self.files

/-- `Folder.is_empty` (lines 183-185). -/
def Folder.is_empty (self : Folder) : Bool :=
  self.subfolders.length == 0 && self.files.length == 0

/-! ### Sequences of mutating folder operations (for the C1 invariant) -/

/-- One call of the mutating `Folder` child API. -/
inductive FolderOp where
  | addSubfolder (folder : Folder)
  | addFile (file_ref : FileReference)
  | removeSubfolder (name : String)
  | removeFile (name : String)
  | renameSubfolder (old_name new_name : String)
  | renameFile (old_name new_name : String)

/-- Apply one operation to a folder.  The first component is the state of
`self` when the call returns or raises; in the Python methods every raise
precedes the first mutation of `self`. -/
def FolderOp.step (self : Folder) : FolderOp → Folder × Option DomainErr
  | .addSubfolder g => self.add_subfolder g
  | .addFile fr => self.add_file fr
  | .removeSubfolder n =>
    let r := self.remove_subfolder n
    (r.1, match r.2 with | .ok _ => none | .error e => some e)
  | .removeFile n =>
    let r := self.remove_file n
    (r.1, match r.2 with | .ok _ => none | .error e => some e)
  | .renameSubfolder o n => self.rename_subfolder o n
  | .renameFile o n => self.rename_file o n

/-- Run a sequence of operations; a raising call leaves the folder in the
state it had when the exception was raised. -/
def FolderOp.run (self : Folder) : List FolderOp → Folder
  | [] => self
  | op :: ops => FolderOp.run (FolderOp.step self op).1 ops

/-- The namespace invariant of one folder: subfolder names are unique, file
names are unique, and the two name sets are disjoint. -/
def Folder.childInv (f : Folder) : Prop :=
  (PyDict.keys f.subfolders).Nodup ∧ (PyDict.keys f.files).Nodup ∧
    ∀ n ∈ PyDict.keys f.subfolders, n ∉ PyDict.keys f.files

instance (f : Folder) : Decidable f.childInv :=
  inferInstanceAs (Decidable ((PyDict.keys f.subfolders).Nodup ∧
    (PyDict.keys f.files).Nodup ∧
    ∀ n ∈ PyDict.keys f.subfolders, n ∉ PyDict.keys f.files))

/-- The operation is an insertion or a rename whose target name already
denotes a child of either kind (for renames, with an existing source). -/
def FolderOp.dupTarget (f : Folder) : FolderOp → Prop
  | .addSubfolder g =>
    g.name ∈ PyDict.keys f.subfolders ∨ g.name ∈ PyDict.keys f.files
  | .addFile fr =>
    fr.name ∈ PyDict.keys f.subfolders ∨ fr.name ∈ PyDict.keys f.files
  | .renameSubfolder o n =>
    o ∈ PyDict.keys f.subfolders ∧ (n ∈ PyDict.keys f.subfolders ∨ n ∈ PyDict.keys f.files)
  | .renameFile o n =>
    o ∈ PyDict.keys f.files ∧ (n ∈ PyDict.keys f.subfolders ∨ n ∈ PyDict.keys f.files)
  | _ => False


/-! ### Project (src/domain/entities.py lines 228-398) -/

structure Project where
  id : String
  name : String
  description : String
  version : String
  created_date : String
  last_modified : String
  project_file_path : Option String
  root_folder : Folder
deriving Repr

/-- The `Project` dataclass constructor followed by `__post_init__`
(lines 241-248): rejects an empty/whitespace name.  A constructed dataclass
`root_folder` is always truthy in Python, so the fallback branch never
fires. -/
def Project.make (id name description version created_date last_modified : String)
    (project_file_path : Option String) (root_folder : Folder) :
    Except DomainErr Project :=
  if stripIsEmpty name then .error .projectError
  else .ok { id := id, name := name, description := description, version := version,
             created_date := created_date, last_modified := last_modified,
             project_file_path := project_file_path, root_folder := root_folder }

/-- The path split of `Project.get_folder_by_path` (line 313): split on
`'/'`, keeping only non-empty segments different from the literal
`"Root"`. -/
def pathParts (folder_path : String) : List String :=
  (pySplitSlash folder_path).filter (fun part => !(part == "") && !(part == "Root"))

/-- The traversal loop of `get_folder_by_path` (lines 316-319). -/
def Folder.walk (f : Folder) : List String → Except DomainErr Folder
  | [] => .ok f
  | part :: rest =>
    match PyDict.get? f.subfolders part with
    | none => .error .itemNotFoundError
    | some sub => sub.walk rest

/-- `Project.get_folder_by_path` (lines 307-321). -/
def Project.get_folder_by_path (p : Project) (folder_path : String) :
    Except DomainErr Folder :=
  if folder_path == "" || folder_path == "/" || folder_path == "Root" then .ok p.root_folder
  else p.root_folder.walk (pathParts folder_path)

/-- Apply a folder mutation at the folder reached by `parts`, rebuilding the
ancestor chain: the pure rendering of Python's in-place mutation of the
object returned by `get_folder_by_path`. -/
def Folder.applyAt (f : Folder) (parts : List String) (g : Folder → Folder × β) :
    Option (Folder × β) :=
  match parts with
  | [] => some (g f)
  | part :: rest =>
    match PyDict.get? f.subfolders part with
    | none => none
    | some sub =>
      match sub.applyAt rest g with
      | none => none
      | some (sub', b) => some (f.withSubfolders (PyDict.set f.subfolders part sub'), b)

/-- `Folder.applyAt` lifted to the project root. -/
def Project.applyAtPath (p : Project) (folder_path : String) (g : Folder → Folder × β) :
    Option (Project × β) :=
  match p.root_folder.applyAt (pathParts folder_path) g with
  | none => none
  | some (root', b) => some ({ p with root_folder := root' }, b)

/-- `Project.add_file_to_path` (lines 258-262).  The first component is the
project state when the call returns or raises. -/
def Project.add_file_to_path (p : Project) (folder_path : String)
    (file_ref : FileReference) (now : String) : Project × Option DomainErr :=
  match p.get_folder_by_path folder_path with
  | .error e => (p, some e)
  | .ok _ =>
    match p.applyAtPath folder_path (fun f => f.add_file file_ref) with
    | none => (p, some .itemNotFoundError)
    | some (p1, none) => ({ p1 with last_modified := now }, none)
    | some (_, some e) => (p, some e)

/-- `Project.move_item` (lines 264-279).  Python resolves both folder
objects up front and mutates them in place; here the removal rebuilds the
tree and the insertion is applied at the destination path of the rebuilt
tree, which renders the same observable state whenever the destination is
not a strict descendant of the moved subfolder (for moved files that is
always the case).  The first component is the project state when the call
returns or raises; `now` stands for `datetime.now()`. -/
def Project.move_item (p : Project) (source_path item_name dest_path : String)
    (now : String) : Project × Option DomainErr :=
  match p.get_folder_by_path source_path with
  | .error e => (p, some e)
  | .ok source_folder =>
    match p.get_folder_by_path dest_path with
    | .error e => (p, some e)
    | .ok _dest_folder =>
      if PyDict.contains source_folder.subfolders item_name then
        match p.applyAtPath source_path (fun f => f.remove_subfolder item_name) with
        | none => (p, some .itemNotFoundError)
        | some (_, .error e) => (p, some e)
        | some (p1, .ok folder_to_move) =>
          match p1.applyAtPath dest_path (fun f => f.add_subfolder folder_to_move) with
          | none => (p1, some .itemNotFoundError)
          | some (p2, none) => ({ p2 with last_modified := now }, none)
          | some (_, some e) => (p1, some e)
      else if PyDict.contains source_folder.files item_name then
        match p.applyAtPath source_path (fun f => f.remove_file item_name) with
        | none => (p, some .itemNotFoundError)
        | some (_, .error e) => (p, some e)
        | some (p1, .ok file_to_move) =>
          match p1.applyAtPath dest_path (fun f => f.add_file file_to_move) with
          | none => (p1, some .itemNotFoundError)
          | some (p2, none) => ({ p2 with last_modified := now }, none)
          | some (_, some e) => (p1, some e)
      else (p, some .itemNotFoundError)

/-- `Project.copy_file` (lines 281-305).  `fresh_id` stands for the
`uuid4()` value the dataclass default mints for the copy and `now` for the
`datetime.now()` default of `last_modified`; the metadata is passed through
`dict.copy()`, which in this by-value model is the map itself. -/
def Project.copy_file (p : Project) (source_path file_name dest_path : String)
    (new_name : Option String) (fresh_id now : String) :
    Project × Except DomainErr FileReference :=
  match p.get_folder_by_path source_path with
  | .error e => (p, .error e)
  | .ok source_folder =>
    match p.get_folder_by_path dest_path with
    | .error e => (p, .error e)
    | .ok _dest_folder =>
      match PyDict.get? source_folder.files file_name with
      | none => (p, .error .itemNotFoundError)
      | some original_file =>
        match FileReference.make fresh_id (new_name.getD file_name)
            original_file.original_path original_file.relative_path
            original_file.file_type original_file.size_bytes
            original_file.imported_date now original_file.metadata with
        | .error e => (p, .error e)
        | .ok copied_file =>
          match p.applyAtPath dest_path (fun f => f.add_file copied_file) with
          | none => (p, .error .itemNotFoundError)
          | some (p2, none) => ({ p2 with last_modified := now }, .ok copied_file)
          | some (_, some e) => (p, .error e)



/-! ### DeleteItemUseCase (src/application/use_cases/file_use_cases.py) -/

/-- Failure of `DeleteItemUseCase.execute`: `except DomainError` wraps the
domain error in a `UseCaseError`, while the `InvalidOperationError` raised
for a non-empty folder reaches the generic `except Exception` handler (it
is an application-layer exception, not a `DomainError`). -/
inductive UseCaseFailure where
  | domainError (e : DomainErr)
  | invalidOperation
deriving DecidableEq, Repr

/-- `DeleteItemUseCase.execute` (lines 398-424) for one item.  The first
component is the project state when the call returns or raises; every raise
precedes the mutation.  `item_type_is_file` selects the `'file'` branch. -/
def deleteItemExecute (project : Project) (folder_path item_name : String)
    (item_type_is_file : Bool) (now : String) : Project × Option UseCaseFailure :=
  match project.get_folder_by_path folder_path with
  | .error e => (project, some (.domainError e))
  | .ok folder =>
    if item_type_is_file then
      match project.applyAtPath folder_path (fun f => f.remove_file item_name) with
      | none => (project, some (.domainError .itemNotFoundError))
      | some (_, .error e) => (project, some (.domainError e))
      | some (p1, .ok _) => ({ p1 with last_modified := now }, none)
    else
      match folder.get_subfolder item_name with
      | .error e => (project, some (.domainError e))
      | .ok subfolder =>
        if !subfolder.is_empty then (project, some .invalidOperation)
        else
          match project.applyAtPath folder_path (fun f => f.remove_subfolder item_name) with
          | none => (project, some (.domainError .itemNotFoundError))
          | some (_, .error e) => (project, some (.domainError e))
          | some (p1, .ok _) => ({ p1 with last_modified := now }, none)



/-! ### JSON values (the persisted project document) -/

inductive Json where
  | null
  | bool (b : Bool)
  | num (n : Nat)
  | str (s : String)
  | arr (xs : List Json)
  | obj (kvs : List (String × Json))
deriving Repr

def Json.asStr : Json → Option String
  | .str s => some s
  | _ => none

def Json.asNum : Json → Option Nat
  | .num n => some n
  | _ => none

/-- A JSON value standing for a Python `str`-or-`None` field. -/
def Json.asOptStr : Json → Option (Option String)
  | .null => some none
  | .str s => some (some s)
  | _ => none

/-! ### Data-layer exceptions (src/data/exceptions.py) -/

inductive DataErr where
  | projectFileError
  | corruptedProjectError
  | jsonSerializationError
  | backupError
  | fileNotFoundError
  | permissionError
  | pyError
deriving DecidableEq, Repr

/-- Python `key not in data` on a parsed JSON value: key membership for
dicts, element membership for lists, substring test for strings, and a
raised builtin `TypeError` (`.error`) for the other scalars. -/
def pyNotIn (data : Json) (key : String) : Except Unit Bool :=
  match data with
  | .obj kvs => .ok (!(PyDict.contains kvs key))
  | .arr xs => .ok (!(xs.any (fun j => match j with | .str t => t == key | _ => false)))
  | .str s => .ok (!(decide (key.data <:+: s.data)))
  | _ => .error ()

/-- Python `data[key]` where used after a membership check: dict lookup;
indexing a list or string by a string raises `TypeError`, as does indexing
a scalar. -/
def pyIndex (data : Json) (key : String) : Except Unit Json :=
  match data with
  | .obj kvs =>
    match PyDict.get? kvs key with
    | some v => .ok v
    | none => .error ()
  | _ => .error ()

/-! ### Serialization (entities.py `to_dict` / `from_dict`) -/

/-- `FileReference.to_dict` (lines 49-61). -/
def FileReference.to_dict (fr : FileReference) : Json :=
  .obj [("id", .str fr.id), ("name", .str fr.name),
        ("original_path", .str fr.original_path),
        ("relative_path", .str fr.relative_path),
        ("file_type", .str fr.file_type),
        ("size_bytes", .num fr.size_bytes),
        ("imported_date", .str fr.imported_date),
        ("last_modified", .str fr.last_modified),
        ("metadata", .obj (fr.metadata.map (fun p => (p.1, .str p.2))))]

def decodeMetadataList : List (String × Json) → Option (List (String × String))
  | [] => some []
  | (k, .str v) :: rest => (decodeMetadataList rest).map (fun l => (k, v) :: l)
  | _ => none

/-- A metadata dictionary read back from the document (values are strings
in this model). -/
def decodeMetadata : Json → Option (List (String × String))
  | .obj kvs => decodeMetadataList kvs
  | _ => none

/-- `FileReference.from_dict` (lines 63-77): the required keys are read
from the dictionary (a missing key raises `KeyError`, modelled as `none`,
as is a value of the wrong shape for this model) and the validating
constructor runs `__post_init__`. -/
def FileReference.from_dict (data : Json) : Option FileReference :=
  match data with
  | .obj kvs => do
    let i ← (PyDict.get? kvs "id").bind Json.asStr
    let nm ← (PyDict.get? kvs "name").bind Json.asStr
    let op ← (PyDict.get? kvs "original_path").bind Json.asStr
    let rp ← (PyDict.get? kvs "relative_path").bind Json.asStr
    let ft ← (PyDict.get? kvs "file_type").bind Json.asStr
    let sb ← (PyDict.get? kvs "size_bytes").bind Json.asNum
    let idt ← (PyDict.get? kvs "imported_date").bind Json.asStr
    let lm ← (PyDict.get? kvs "last_modified").bind Json.asStr
    let md ← match PyDict.get? kvs "metadata" with
      | none => some []
      | some j => decodeMetadata j
    (FileReference.make i nm op rp ft sb idt lm md).toOption
  | _ => none

mutual

/-- `Folder.to_dict` (lines 194-203). -/
def Folder.to_dict (f : Folder) : Json :=
  match f with
  | .node i n cd pid subs fls =>
    .obj [("id", .str i), ("name", .str n), ("created_date", .str cd),
          ("parent_id", match pid with | none => .null | some s => .str s),
          ("subfolders", .obj (foldersToList subs)),
          ("files", .obj (fls.map (fun p => (p.1, p.2.to_dict))))]

/-- `{name: folder.to_dict() for name, folder in subfolders.items()}`. -/
def foldersToList : List (String × Folder) → List (String × Json)
  | [] => []
  | (nm, f) :: rest => (nm, f.to_dict) :: foldersToList rest

end

/-- The file-loading loop of `Folder.from_dict` (lines 220-223). -/
def filesFromList : List (String × Json) → Option (List (String × FileReference))
  | [] => some []
  | (nm, j) :: rest =>
    match FileReference.from_dict j, filesFromList rest with
    | some fr, some frs => some ((nm, fr) :: frs)
    | _, _ => none

/-- `data.get('files', {})` with its loading loop, shared by the branches of
`Folder.from_dict`. -/
def doFiles (kvs : List (String × Json)) : Option (List (String × FileReference)) :=
  match PyDict.get? kvs "files" with
  | none => some []
  | some (.obj fkvs) => filesFromList fkvs
  | some _ => none

mutual

/-- `Folder.from_dict` (lines 205-225): the constructor (with empty child
maps) runs `__post_init__`, then subfolders and files are inserted under
their dictionary keys in document order. -/
def Folder.from_dict (data : Json) : Option Folder :=
  match data with
  | .obj kvs =>
    match (PyDict.get? kvs "id").bind Json.asStr,
          (PyDict.get? kvs "name").bind Json.asStr,
          (PyDict.get? kvs "created_date").bind Json.asStr with
    | some i, some nm, some cd =>
      match (match PyDict.get? kvs "parent_id" with
             | none => some none
             | some j => j.asOptStr) with
      | none => none
      | some pid =>
        match Folder.make i nm cd pid [] [] with
        | .error _ => none
        | .ok _ =>
          match hsub : PyDict.get? kvs "subfolders" with
          | none =>
            (doFiles kvs).map (fun fls => Folder.node i nm cd pid [] fls)
          | some (.obj skvs) =>
            match foldersFromList skvs with
            | none => none
            | some subs =>
              (doFiles kvs).map (fun fls => Folder.node i nm cd pid subs fls)
          | some _ => none
    | _, _, _ => none
  | _ => none
termination_by sizeOf data
decreasing_by
  simp only [PyDict.get?, Option.map_eq_some'] at hsub
  obtain ⟨p, hp, hv⟩ := hsub
  have h1 : sizeOf p < sizeOf kvs := List.sizeOf_lt_of_mem (List.mem_of_find?_eq_some hp)
  have h2 : 1 + sizeOf skvs ≤ sizeOf p := by
    obtain ⟨pk, pv⟩ := p
    simp only at hv
    subst hv
    simp
    try omega
  simp
  try omega

/-- The subfolder-loading loop of `Folder.from_dict` (lines 216-218). -/
def foldersFromList (l : List (String × Json)) : Option (List (String × Folder)) :=
  match l with
  | [] => some []
  | (nm, j) :: rest =>
    match Folder.from_dict j, foldersFromList rest with
    | some f, some fs => some ((nm, f) :: fs)
    | _, _ => none
termination_by sizeOf l
decreasing_by
  · simp
    try omega
  · simp
    try omega

end

/-- `Project.to_dict` (lines 367-380). -/
def Project.to_dict (p : Project) : Json :=
  .obj [("project_info", .obj [
          ("id", .str p.id), ("name", .str p.name),
          ("description", .str p.description), ("version", .str p.version),
          ("created_date", .str p.created_date),
          ("last_modified", .str p.last_modified),
          ("project_file_path", match p.project_file_path with
            | none => .null | some s => .str s)]),
        ("folder_structure", p.root_folder.to_dict)]

/-- `Project.from_dict` (lines 382-398). -/
def Project.from_dict (data : Json) : Option Project :=
  match data with
  | .obj kvs => do
    let pi ← match PyDict.get? kvs "project_info" with
      | some (.obj pkvs) => some pkvs
      | _ => none
    let i ← (PyDict.get? pi "id").bind Json.asStr
    let nm ← (PyDict.get? pi "name").bind Json.asStr
    let desc ← match PyDict.get? pi "description" with
      | none => some ""
      | some j => j.asStr
    let ver ← match PyDict.get? pi "version" with
      | none => some "1.0.0"
      | some j => j.asStr
    let cd ← (PyDict.get? pi "created_date").bind Json.asStr
    let lm ← (PyDict.get? pi "last_modified").bind Json.asStr
    let pfp ← match PyDict.get? pi "project_file_path" with
      | none => some none
      | some j => j.asOptStr
    let fsj ← PyDict.get? kvs "folder_structure"
    let root ← Folder.from_dict fsj
    (Project.make i nm desc ver cd lm pfp root).toOption
  | _ => none

/-! ### ProjectRepository.load_project (src/data/project_repository.py) -/

/-- One `if key not in d: raise CorruptedProjectError` check; an escaped
builtin `TypeError` is `.pyError`. -/
def requireKey (d : Json) (key : String) : Except DataErr Unit :=
  match pyNotIn d key with
  | .error _ => .error .pyError
  | .ok true => .error .corruptedProjectError
  | .ok false => .ok ()

/-- A `for key in required_keys` loop of `_validate_project_data`. -/
def requireKeys (d : Json) (ks : List String) : Except DataErr Unit :=
  match ks with
  | [] => .ok ()
  | k :: rest =>
    match requireKey d k with
    | .error e => .error e
    | .ok _ => requireKeys d rest

/-- `ProjectRepository._validate_project_data` (lines 293-322). -/
def validate_project_data (data : Json) : Except DataErr Unit :=
  match requireKeys data ["project_info", "folder_structure"] with
  | .error e => .error e
  | .ok _ =>
  match pyIndex data "project_info" with
  | .error _ => .error .pyError
  | .ok project_info =>
  match requireKeys project_info ["id", "name", "created_date", "last_modified"] with
  | .error e => .error e
  | .ok _ =>
  match pyIndex data "folder_structure" with
  | .error _ => .error .pyError
  | .ok folder_structure =>
    requireKeys folder_structure ["id", "name"]

/-- `ProjectRepository.load_project` (lines 77-123) from the point the file
has been read: the argument is the outcome of `json.load` (`none` models a
`json.JSONDecodeError`); a failure inside `Project.from_dict` is caught and
re-raised as `CorruptedProjectError`.  (The later rebinding of the file
manager and of `project_file_path` is outside this model.) -/
def load_project (parsed : Option Json) : Except DataErr Project :=
  match parsed with
  | none => .error .jsonSerializationError
  | some data =>
    match validate_project_data data with
    | .error e => .error e
    | .ok _ =>
      match Project.from_dict data with
      | none => .error .corruptedProjectError
      | some proj => .ok proj



/-! ### Disk model and ProjectRepository.save_project -/

/-- Disk contents: rendered path → file content. -/
abbrev FS := List (String × String)

/-- A file path split as `pathlib` sees it: parent directory (with trailing
separator), stem, and extension. -/
structure PPath where
  dir : String
  stem : String
  ext : String
deriving Repr

def PPath.render (p : PPath) : String := p.dir ++ p.stem ++ p.ext

/-- `_create_backup` target (lines 337-339):
`f"{project_path.stem}_backup_{timestamp}{project_path.suffix}"` next to the
project file. -/
def backupPath (p : PPath) (timestamp : String) : PPath :=
  { dir := p.dir, stem := p.stem ++ "_backup_" ++ timestamp, ext := p.ext }

/-- `project_path.with_suffix(project_path.suffix + '.tmp')` (line 161). -/
def tempPath (p : PPath) : PPath :=
  { dir := p.dir, stem := p.stem, ext := p.ext ++ ".tmp" }

/-- Failure injection for the I/O steps of `save_project`: whether the
backup copy (`shutil.copy2`), the JSON serialization, the temp-file write,
or the final rename (`shutil.move`) raises. -/
structure SaveEnv where
  backupRaises : Bool
  serializeRaises : Bool
  writeRaises : Bool
  renameRaises : Bool
deriving Repr

/-- `ProjectRepository.save_project` (lines 125-177) over the disk model.
`path` is the project's `project_file_path` (`none` when unset), `content`
the serialized document, `ts` the backup timestamp.  `shutil.move` of a
sibling file is the atomic rename.  An `OSError` during the temp write or
the rename unlinks the temp file and raises `ProjectFileError`.  Returns
the disk state when the call returns or raises. -/
def save_project (fs : FS) (path : Option PPath) (backup : Bool)
    (ts content : String) (env : SaveEnv) : FS × Option DataErr :=
  match path with
  | none => (fs, some .projectFileError)
  | some pp =>
    match
      (if backup && PyDict.contains fs pp.render then
        if env.backupRaises then none
        else some (PyDict.set fs (backupPath pp ts).render
          ((PyDict.get? fs pp.render).getD ""))
      else some fs) with
    | none => (fs, some .backupError)
    | some fs1 =>
      if env.serializeRaises then (fs1, some .jsonSerializationError)
      else if env.writeRaises then (fs1, some .projectFileError)
      else
        let fs2 := PyDict.set fs1 (tempPath pp).render content
        if env.renameRaises then
          (PyDict.del fs2 (tempPath pp).render, some .projectFileError)
        else
          (PyDict.set (PyDict.del fs2 (tempPath pp).render) pp.render content,
           none)



/-! ### ProjectRepository.import_file_to_project (copy branch) -/

/-- The collision-resolution loop of `import_file_to_project`
(lines 215-222): while `imported_files/<file_name>` exists on disk, replace
`file_name` by `{stem}_{counter}{suffix}` of the current name and increment
the counter.  `exfs` is the list of project-relative paths that exist
(`FileManager.file_exists`). -/
def resolveImportName (exfs : List String) (file_name : String) (counter : Nat) : String :=
  if h : ("imported_files/" ++ file_name) ∈ exfs then
    resolveImportName exfs
      (pyStem file_name ++ "_" ++ toString counter ++ pyExtSuffix file_name)
      (counter + 1)
  else file_name
termination_by (exfs.map String.length).foldr max 0 + 1 - file_name.length
decreasing_by
  have hsplit : (pyStem file_name).length + (pyExtSuffix file_name).length
      = file_name.length := by
    rw [pyStem, pyExtSuffix, pySplitExt]
    cases lastDotIdx file_name.data with
    | none => simp
    | some i =>
      by_cases hc : 0 < i ∧ i + 1 < file_name.data.length
      · simp only [hc, if_true]
        show (String.mk (file_name.data.take i)).length
            + (String.mk (file_name.data.drop i)).length = file_name.length
        show (file_name.data.take i).length + (file_name.data.drop i).length
            = file_name.data.length
        rw [List.length_take, List.length_drop]
        omega
      · simp only [hc, if_false]
        simp
  have haux : ∀ (l : List String), ("imported_files/" ++ file_name) ∈ l →
      ("imported_files/" ++ file_name).length ≤ (l.map String.length).foldr max 0 := by
    intro l
    induction l with
    | nil => intro hx; cases hx
    | cons a t ih =>
      intro hx
      rcases List.mem_cons.1 hx with heq | hmem
      · simp only [List.map_cons, List.foldr_cons]
        rw [heq]
        exact le_max_left _ _
      · simp only [List.map_cons, List.foldr_cons]
        exact le_trans (ih hmem) (le_max_right _ _)
  have hA := haux exfs h
  rw [String.length_append] at hA
  have h15 : ("imported_files/").length = 15 := rfl
  have hnew : (pyStem file_name ++ "_" ++ toString counter ++ pyExtSuffix file_name).length
      = (pyStem file_name).length + "_".length + (toString counter).length
        + (pyExtSuffix file_name).length := by
    rw [String.length_append, String.length_append, String.length_append]
  have h1 : "_".length = 1 := rfl
  omega

/-- Outcome of an import: a data-layer or a domain-layer exception. -/
inductive ImportErr where
  | dataError (e : DataErr)
  | domainError (e : DomainErr)
deriving DecidableEq, Repr

/-- `ProjectRepository.import_file_to_project` (lines 179-249) for the
`copy_file = true` branch over the disk model.  `exfs` lists the existing
project-relative paths; `source_exists` is whether the source path exists
as a regular file; the byte copy itself is assumed to succeed and adds the
stored path to the disk; `fresh_id`/`now` stand for the minted `uuid4()`
and `datetime.now()` values, and the `imported_copy`/`import_date` metadata
values are rendered as strings.  Returns disk, project, and outcome. -/
def import_file_to_project (exfs : List String) (p : Project)
    (source_path source_name : String) (source_exists : Bool)
    (target_folder_path : String) (file_size : Nat) (fresh_id now : String) :
    List String × Project × Except ImportErr FileReference :=
  if !source_exists then (exfs, p, .error (.dataError .fileNotFoundError))
  else
    let file_name := resolveImportName exfs source_name 1
    let relative_path := "imported_files/" ++ file_name
    let exfs1 := exfs ++ [relative_path]
    match FileReference.make fresh_id file_name source_path relative_path ""
        file_size now now [("imported_copy", "true"), ("import_date", now)] with
    | .error e => (exfs1, p, .error (.domainError e))
    | .ok file_ref =>
      match p.add_file_to_path target_folder_path file_ref now with
      | (p1, none) => (exfs1, p1, .ok file_ref)
      | (p1, some e) => (exfs1, p1, .error (.domainError e))



/-! ### Well-formedness as the constructors establish it (for round-trips) -/

/-- What `FileReference.__post_init__` guarantees, as serialization sees
it: non-empty name, non-empty original path, and a `file_type` on which the
inference rerun is the identity (it is empty only when the name yields no
extension). -/
def FileReference.wellFormed (fr : FileReference) : Bool :=
  !stripIsEmpty fr.name && !(fr.original_path == "") &&
    (!(fr.file_type == "") || (inferFileType fr.name == ""))

mutual

/-- What the `Folder` constructors guarantee, recursively. -/
def Folder.wellFormed : Folder → Bool
  | .node _ n _ _ subs fls =>
    !stripIsEmpty n && !hasInvalidChar n
      && fls.all (fun p => p.2.wellFormed) && foldersWellFormed subs

def foldersWellFormed : List (String × Folder) → Bool
  | [] => true
  | (_, f) :: rest => f.wellFormed && foldersWellFormed rest

end

/-- What `Project.__post_init__` guarantees. -/
def Project.wellFormed (p : Project) : Bool :=
  !stripIsEmpty p.name && p.root_folder.wellFormed



/-! ### All file references in a project (entities.py lines 323-339) -/

mutual

/-- The `collect_files` closure of `Project.get_all_file_references`. -/
def Folder.collect_files : Folder → List FileReference
  | .node _ _ _ _ subs fls => fls.map (·.2) ++ collectFilesList subs

def collectFilesList : List (String × Folder) → List FileReference
  | [] => []
  | (_, f) :: rest => f.collect_files ++ collectFilesList rest

end

/-- `Project.get_all_file_references` (lines 323-332). -/
def Project.get_all_file_references (p : Project) : List FileReference :=
  p.root_folder.collect_files

/-! ### Python object identity of metadata dicts -/

/-- A heap of metadata dictionaries: address → contents.  In Python a
`FileReference.metadata` field is a reference to such a dict object;
`update_metadata` mutates the addressed dict in place, and the
`original_file.metadata.copy()` of `Project.copy_file` (line 300)
allocates a fresh dict with equal contents. -/
abbrev MetaHeap := List (Nat × List (String × String))

def heapGet (σ : MetaHeap) (r : Nat) : List (String × String) :=
  match σ.find? (fun p => p.1 == r) with
  | some p => p.2
  | none => []

/-- Mutate the dict at an existing address. -/
def heapSet (σ : MetaHeap) (r : Nat) (d : List (String × String)) : MetaHeap :=
  σ.map (fun p => if p.1 == r then (r, d) else p)

/-- `original_file.metadata.copy()` bound to a fresh address. -/
def heapAllocCopy (σ : MetaHeap) (src fresh : Nat) : MetaHeap :=
  (fresh, heapGet σ src) :: σ

/-- Python `dict.update(kwargs)`. -/
def dictUpdate (d : List (String × String)) (kwargs : List (String × String)) :
    List (String × String) :=
  kwargs.foldl (fun acc p => PyDict.set acc p.1 p.2) d

/-- `FileReference.update_metadata` (entities.py lines 44-47) acting on the
heap through the reference held by the file. -/
def update_metadata (σ : MetaHeap) (r : Nat) (kwargs : List (String × String)) :
    MetaHeap :=
  heapSet σ r (dictUpdate (heapGet σ r) kwargs)


/-! ## Theorems -/

namespace PyDict

theorem contains_iff_mem_keys (l : List (String × α)) (k : String) :
    contains l k = true ↔ k ∈ keys l := by
  simp [contains, keys, List.any_eq_true, beq_iff_eq]

theorem set_of_not_contains (l : List (String × α)) (k : String) (v : α)
    (h : contains l k = false) : set l k v = l ++ [(k, v)] := by
  simp [set, h]

theorem keys_set_of_not_contains (l : List (String × α)) (k : String) (v : α)
    (h : contains l k = false) : keys (set l k v) = keys l ++ [k] := by
  rw [set_of_not_contains l k v h]
  simp [keys]

theorem keys_del_sublist (l : List (String × α)) (k : String) :
    (keys (del l k)).Sublist (keys l) := by
  simpa [keys, del] using (List.filter_sublist l).map (·.1)

theorem mem_keys_del (l : List (String × α)) (k k' : String)
    (h : k' ∈ keys (del l k)) : k' ∈ keys l ∧ k' ≠ k := by
  simp only [keys, del, List.mem_map] at h
  obtain ⟨p, hp, he⟩ := h
  rw [List.mem_filter] at hp
  have hne : ¬ p.1 = k := by simpa using hp.2
  refine ⟨List.mem_map.2 ⟨p, hp.1, he⟩, ?_⟩
  rw [← he]
  exact hne

theorem nodup_keys_del (l : List (String × α)) (k : String)
    (h : (keys l).Nodup) : (keys (del l k)).Nodup :=
  (keys_del_sublist l k).nodup h

theorem not_contains_find?_eq_none (l : List (String × α)) (k : String)
    (h : contains l k = false) : l.find? (fun p => p.1 == k) = none := by
  rw [List.find?_eq_none]
  intro x hx
  simp only [contains, List.any_eq_false] at h
  exact h x hx

theorem get?_eq_some_imp_mem (l : List (String × α)) (k : String) (v : α)
    (h : get? l k = some v) : k ∈ keys l := by
  simp only [get?, Option.map_eq_some'] at h
  obtain ⟨p, hp, _⟩ := h
  have hm := List.mem_of_find?_eq_some hp
  have he := List.find?_some hp
  simp only [beq_iff_eq] at he
  exact List.mem_map.2 ⟨p, hm, he⟩

theorem contains_of_get?_eq_some (l : List (String × α)) (k : String) (v : α)
    (h : get? l k = some v) : contains l k = true :=
  (contains_iff_mem_keys l k).2 (get?_eq_some_imp_mem l k v h)

theorem get?_set_self (l : List (String × α)) (k : String) (v : α) :
    get? (set l k v) k = some v := by
  unfold set
  by_cases h : contains l k = true
  · rw [if_pos h, get?, List.find?_map]
    have hpred : ((fun x : String × α => x.1 == k) ∘ fun p => if p.1 == k then (k, v) else p)
        = fun p : String × α => p.1 == k := by
      funext p
      simp only [Function.comp]
      by_cases hp : p.1 = k
      · rw [if_pos (by simpa using hp), hp]
      · rw [if_neg (by simpa using hp)]
    rw [hpred]
    cases hfind : l.find? (fun p => p.1 == k) with
    | none =>
      exfalso
      rw [List.find?_eq_none] at hfind
      simp only [contains, List.any_eq_true] at h
      obtain ⟨p, hp, he⟩ := h
      exact hfind p hp he
    | some p0 =>
      have hp0 := List.find?_some hfind
      simp only [beq_iff_eq] at hp0
      simp [hp0]
  · rw [if_neg h, get?, List.find?_append,
        not_contains_find?_eq_none l k (by simpa using h)]
    simp [List.find?]

theorem get?_set_ne (l : List (String × α)) (k k' : String) (v : α) (hne : k' ≠ k) :
    get? (set l k v) k' = get? l k' := by
  unfold set
  by_cases h : contains l k = true
  · rw [if_pos h, get?, List.find?_map, get?]
    have hpred : ((fun x : String × α => x.1 == k') ∘ fun p => if p.1 == k then (k, v) else p)
        = fun p : String × α => p.1 == k' := by
      funext p
      simp only [Function.comp]
      by_cases hp : p.1 = k
      · rw [if_pos (by simpa using hp), hp]
      · rw [if_neg (by simpa using hp)]
    rw [hpred]
    cases hfind : l.find? (fun p => p.1 == k') with
    | none => simp
    | some p0 =>
      have hp0 := List.find?_some hfind
      simp only [beq_iff_eq] at hp0
      simp [hp0, hne]
  · rw [if_neg h, get?, get?, List.find?_append]
    have hkk : (k == k') = false := by
      simpa using Ne.symm hne
    have hsingle : List.find? (fun p : String × α => p.1 == k') [(k, v)] = none := by
      simp [List.find?, hkk]
    rw [hsingle, Option.or_none]

theorem get?_del_ne (l : List (String × α)) (k k' : String) (hne : k' ≠ k) :
    get? (del l k) k' = get? l k' := by
  rw [get?, get?, del]
  induction l with
  | nil => rfl
  | cons p t ih =>
    by_cases hp : p.1 = k
    · rw [List.filter_cons_of_neg (by simp [hp]),
          List.find?_cons_of_neg _ (by simp [hp, Ne.symm hne])]
      exact ih
    · rw [List.filter_cons_of_pos (by simp [hp])]
      by_cases hpk : p.1 = k'
      · rw [List.find?_cons_of_pos _ (by simp [hpk]),
            List.find?_cons_of_pos _ (by simp [hpk])]
      · rw [List.find?_cons_of_neg _ (by simp [hpk]),
            List.find?_cons_of_neg _ (by simp [hpk])]
        exact ih

theorem not_contains_del (l : List (String × α)) (k : String) :
    contains (del l k) k = false := by
  rw [del, contains]
  simp only [List.any_eq_false]
  intro p hp
  rw [List.mem_filter] at hp
  simpa using hp.2

theorem get?_isSome_of_contains (l : List (String × α)) (k : String)
    (h : contains l k = true) : (get? l k).isSome := by
  rw [get?]
  cases hfind : l.find? (fun p => p.1 == k) with
  | none =>
    exfalso
    rw [List.find?_eq_none] at hfind
    simp only [contains, List.any_eq_true] at h
    obtain ⟨p, hp, he⟩ := h
    exact hfind p hp he
  | some p0 => rfl


theorem not_mem_keys_of_not_contains (l : List (String × α)) (k : String)
    (h : contains l k = false) : k ∉ keys l := by
  intro hm
  rw [← contains_iff_mem_keys] at hm
  rw [h] at hm
  exact Bool.false_ne_true hm

end PyDict

theorem pyStem_append_suffix (s : String) : pyStem s ++ pyExtSuffix s = s := by
  rw [pyStem, pyExtSuffix, pySplitExt]
  cases lastDotIdx s.data with
  | none => simp
  | some i =>
    by_cases h : 0 < i ∧ i + 1 < s.data.length
    · simp only [h, if_true]
      show String.mk (s.data.take i ++ s.data.drop i) = s
      rw [List.take_append_drop]
    · simp only [h, if_false]
      simp


/-! ### Folder projection lemmas -/

@[simp] theorem Folder.withSubfolders_subfolders (f : Folder) (s : List (String × Folder)) :
    (f.withSubfolders s).subfolders = s := by
  cases f; rfl

@[simp] theorem Folder.withSubfolders_files (f : Folder) (s : List (String × Folder)) :
    (f.withSubfolders s).files = f.files := by
  cases f; rfl

@[simp] theorem Folder.withFiles_files (f : Folder) (l : List (String × FileReference)) :
    (f.withFiles l).files = l := by
  cases f; rfl

@[simp] theorem Folder.withFiles_subfolders (f : Folder) (l : List (String × FileReference)) :
    (f.withFiles l).subfolders = f.subfolders := by
  cases f; rfl

@[simp] theorem Folder.withParent_name (f : Folder) (p : Option String) :
    (f.withParent p).name = f.name := by
  cases f; rfl

@[simp] theorem Folder.withName_name (f : Folder) (n : String) :
    (f.withName n).name = n := by
  cases f; rfl

/-! ### C1: the per-folder namespace invariant -/

theorem childInv_step (f : Folder) (op : FolderOp) (h : f.childInv) :
    (FolderOp.step f op).1.childInv := by
  obtain ⟨hs, hf, hd⟩ := h
  cases op with
  | addSubfolder g =>
    simp only [FolderOp.step, Folder.add_subfolder]
    by_cases h1 : PyDict.contains f.subfolders g.name = true
    · rw [if_pos h1]; exact ⟨hs, hf, hd⟩
    · rw [if_neg h1]
      by_cases h2 : PyDict.contains f.files g.name = true
      · rw [if_pos h2]; exact ⟨hs, hf, hd⟩
      · rw [if_neg h2]
        have h1' : PyDict.contains f.subfolders g.name = false := by simpa using h1
        have h2' : PyDict.contains f.files g.name = false := by simpa using h2
        refine ⟨?_, ?_, ?_⟩
        · rw [Folder.withSubfolders_subfolders, PyDict.keys_set_of_not_contains _ _ _ h1',
              List.nodup_append]
          refine ⟨hs, List.nodup_singleton _, ?_⟩
          intro a ha hb
          rw [List.mem_singleton] at hb
          subst hb
          exact PyDict.not_mem_keys_of_not_contains _ _ h1' ha
        · rw [Folder.withSubfolders_files]; exact hf
        · intro n hn
          rw [Folder.withSubfolders_files]
          rw [Folder.withSubfolders_subfolders, PyDict.keys_set_of_not_contains _ _ _ h1',
              List.mem_append, List.mem_singleton] at hn
          rcases hn with hn | hn
          · exact hd n hn
          · subst hn
            exact PyDict.not_mem_keys_of_not_contains _ _ h2'
  | addFile fr =>
    simp only [FolderOp.step, Folder.add_file]
    by_cases h1 : PyDict.contains f.files fr.name = true
    · rw [if_pos h1]; exact ⟨hs, hf, hd⟩
    · rw [if_neg h1]
      by_cases h2 : PyDict.contains f.subfolders fr.name = true
      · rw [if_pos h2]; exact ⟨hs, hf, hd⟩
      · rw [if_neg h2]
        have h1' : PyDict.contains f.files fr.name = false := by simpa using h1
        have h2' : PyDict.contains f.subfolders fr.name = false := by simpa using h2
        refine ⟨?_, ?_, ?_⟩
        · rw [Folder.withFiles_subfolders]; exact hs
        · rw [Folder.withFiles_files, PyDict.keys_set_of_not_contains _ _ _ h1',
              List.nodup_append]
          refine ⟨hf, List.nodup_singleton _, ?_⟩
          intro a ha hb
          rw [List.mem_singleton] at hb
          subst hb
          exact PyDict.not_mem_keys_of_not_contains _ _ h1' ha
        · intro n hn
          rw [Folder.withFiles_subfolders] at hn
          rw [Folder.withFiles_files, PyDict.keys_set_of_not_contains _ _ _ h1',
              List.mem_append, List.mem_singleton]
          rintro (hmem | rfl)
          · exact hd n hn hmem
          · exact PyDict.not_mem_keys_of_not_contains _ _ h2' hn
  | removeSubfolder nm =>
    simp only [FolderOp.step, Folder.remove_subfolder]
    cases hg : PyDict.get? f.subfolders nm with
    | none => exact ⟨hs, hf, hd⟩
    | some sub =>
      refine ⟨?_, ?_, ?_⟩
      · rw [Folder.withSubfolders_subfolders]
        exact PyDict.nodup_keys_del _ _ hs
      · rw [Folder.withSubfolders_files]; exact hf
      · intro n hn
        rw [Folder.withSubfolders_files]
        rw [Folder.withSubfolders_subfolders] at hn
        exact hd n (PyDict.mem_keys_del _ _ _ hn).1
  | removeFile nm =>
    simp only [FolderOp.step, Folder.remove_file]
    cases hg : PyDict.get? f.files nm with
    | none => exact ⟨hs, hf, hd⟩
    | some fr =>
      refine ⟨?_, ?_, ?_⟩
      · rw [Folder.withFiles_subfolders]; exact hs
      · rw [Folder.withFiles_files]
        exact PyDict.nodup_keys_del _ _ hf
      · intro n hn
        rw [Folder.withFiles_subfolders] at hn
        rw [Folder.withFiles_files]
        intro hmem
        exact hd n hn (PyDict.mem_keys_del _ _ _ hmem).1
  | renameSubfolder o nw =>
    simp only [FolderOp.step, Folder.rename_subfolder]
    cases hg : PyDict.get? f.subfolders o with
    | none => exact ⟨hs, hf, hd⟩
    | some sub =>
      dsimp only
      by_cases hc : (PyDict.contains f.subfolders nw || PyDict.contains f.files nw) = true
      · rw [if_pos hc]; exact ⟨hs, hf, hd⟩
      · rw [if_neg hc]
        rw [Bool.or_eq_true, not_or] at hc
        have hc1 : PyDict.contains f.subfolders nw = false := by simpa using hc.1
        have hc2 : PyDict.contains f.files nw = false := by simpa using hc.2
        refine ⟨?_, ?_, ?_⟩
        · rw [Folder.withSubfolders_subfolders]
          apply PyDict.nodup_keys_del
          rw [PyDict.keys_set_of_not_contains _ _ _ hc1, List.nodup_append]
          refine ⟨hs, List.nodup_singleton _, ?_⟩
          intro a ha hb
          rw [List.mem_singleton] at hb
          subst hb
          exact PyDict.not_mem_keys_of_not_contains _ _ hc1 ha
        · rw [Folder.withSubfolders_files]; exact hf
        · intro n hn
          rw [Folder.withSubfolders_files]
          rw [Folder.withSubfolders_subfolders] at hn
          have hn1 := (PyDict.mem_keys_del _ _ _ hn).1
          rw [PyDict.keys_set_of_not_contains _ _ _ hc1, List.mem_append,
              List.mem_singleton] at hn1
          rcases hn1 with hn1 | hn1
          · exact hd n hn1
          · subst hn1
            exact PyDict.not_mem_keys_of_not_contains _ _ hc2
  | renameFile o nw =>
    simp only [FolderOp.step, Folder.rename_file]
    cases hg : PyDict.get? f.files o with
    | none => exact ⟨hs, hf, hd⟩
    | some fr =>
      dsimp only
      by_cases hc : (PyDict.contains f.files nw || PyDict.contains f.subfolders nw) = true
      · rw [if_pos hc]; exact ⟨hs, hf, hd⟩
      · rw [if_neg hc]
        rw [Bool.or_eq_true, not_or] at hc
        have hc1 : PyDict.contains f.files nw = false := by simpa using hc.1
        have hc2 : PyDict.contains f.subfolders nw = false := by simpa using hc.2
        refine ⟨?_, ?_, ?_⟩
        · rw [Folder.withFiles_subfolders]; exact hs
        · rw [Folder.withFiles_files]
          apply PyDict.nodup_keys_del
          rw [PyDict.keys_set_of_not_contains _ _ _ hc1, List.nodup_append]
          refine ⟨hf, List.nodup_singleton _, ?_⟩
          intro a ha hb
          rw [List.mem_singleton] at hb
          subst hb
          exact PyDict.not_mem_keys_of_not_contains _ _ hc1 ha
        · intro n hn
          rw [Folder.withFiles_subfolders] at hn
          rw [Folder.withFiles_files]
          intro hmem
          have hn1 := (PyDict.mem_keys_del _ _ _ hmem).1
          rw [PyDict.keys_set_of_not_contains _ _ _ hc1, List.mem_append,
              List.mem_singleton] at hn1
          rcases hn1 with hn1 | hn1
          · exact hd n hn hn1
          · subst hn1
            exact PyDict.not_mem_keys_of_not_contains _ _ hc2 hn

theorem step_err_unchanged (f : Folder) (op : FolderOp) (e : DomainErr)
    (h : (FolderOp.step f op).2 = some e) : (FolderOp.step f op).1 = f := by
  cases op with
  | addSubfolder g =>
    simp only [FolderOp.step, Folder.add_subfolder] at h ⊢
    by_cases h1 : PyDict.contains f.subfolders g.name = true
    · rw [if_pos h1]
    · rw [if_neg h1] at h ⊢
      by_cases h2 : PyDict.contains f.files g.name = true
      · rw [if_pos h2]
      · rw [if_neg h2] at h
        exact absurd h (by simp)
  | addFile fr =>
    simp only [FolderOp.step, Folder.add_file] at h ⊢
    by_cases h1 : PyDict.contains f.files fr.name = true
    · rw [if_pos h1]
    · rw [if_neg h1] at h ⊢
      by_cases h2 : PyDict.contains f.subfolders fr.name = true
      · rw [if_pos h2]
      · rw [if_neg h2] at h
        exact absurd h (by simp)
  | removeSubfolder nm =>
    simp only [FolderOp.step, Folder.remove_subfolder] at h ⊢
    cases hg : PyDict.get? f.subfolders nm with
    | none => rfl
    | some sub =>
      rw [hg] at h
      exact absurd h (by simp)
  | removeFile nm =>
    simp only [FolderOp.step, Folder.remove_file] at h ⊢
    cases hg : PyDict.get? f.files nm with
    | none => rfl
    | some fr =>
      rw [hg] at h
      exact absurd h (by simp)
  | renameSubfolder o nw =>
    simp only [FolderOp.step, Folder.rename_subfolder] at h ⊢
    cases hg : PyDict.get? f.subfolders o with
    | none => rfl
    | some sub =>
      rw [hg] at h
      dsimp only at h ⊢
      by_cases hc : (PyDict.contains f.subfolders nw || PyDict.contains f.files nw) = true
      · rw [if_pos hc]
      · rw [if_neg hc] at h
        exact absurd h (by simp)
  | renameFile o nw =>
    simp only [FolderOp.step, Folder.rename_file] at h ⊢
    cases hg : PyDict.get? f.files o with
    | none => rfl
    | some fr =>
      rw [hg] at h
      dsimp only at h ⊢
      by_cases hc : (PyDict.contains f.files nw || PyDict.contains f.subfolders nw) = true
      · rw [if_pos hc]
      · rw [if_neg hc] at h
        exact absurd h (by simp)

theorem step_dup (f : Folder) (op : FolderOp) (hdup : FolderOp.dupTarget f op) :
    (FolderOp.step f op).2 = some .duplicateNameError := by
  cases op with
  | addSubfolder g =>
    simp only [FolderOp.step, Folder.add_subfolder]
    rcases hdup with hmem | hmem
    · rw [if_pos ((PyDict.contains_iff_mem_keys _ _).2 hmem)]
    · by_cases h1 : PyDict.contains f.subfolders g.name = true
      · rw [if_pos h1]
      · rw [if_neg h1, if_pos ((PyDict.contains_iff_mem_keys _ _).2 hmem)]
  | addFile fr =>
    simp only [FolderOp.step, Folder.add_file]
    rcases hdup with hmem | hmem
    · by_cases h1 : PyDict.contains f.files fr.name = true
      · rw [if_pos h1]
      · rw [if_neg h1, if_pos ((PyDict.contains_iff_mem_keys _ _).2 hmem)]
    · rw [if_pos ((PyDict.contains_iff_mem_keys _ _).2 hmem)]
  | removeSubfolder nm => exact absurd hdup (by simp [FolderOp.dupTarget])
  | removeFile nm => exact absurd hdup (by simp [FolderOp.dupTarget])
  | renameSubfolder o nw =>
    obtain ⟨ho, hnw⟩ := hdup
    simp only [FolderOp.step, Folder.rename_subfolder]
    have hsome := PyDict.get?_isSome_of_contains f.subfolders o
      ((PyDict.contains_iff_mem_keys _ _).2 ho)
    cases hg : PyDict.get? f.subfolders o with
    | none => rw [hg] at hsome; exact absurd hsome (by simp)
    | some sub =>
      dsimp only
      have hc : (PyDict.contains f.subfolders nw || PyDict.contains f.files nw) = true := by
        rw [Bool.or_eq_true]
        rcases hnw with hm | hm
        · exact Or.inl ((PyDict.contains_iff_mem_keys _ _).2 hm)
        · exact Or.inr ((PyDict.contains_iff_mem_keys _ _).2 hm)
      rw [if_pos hc]
  | renameFile o nw =>
    obtain ⟨ho, hnw⟩ := hdup
    simp only [FolderOp.step, Folder.rename_file]
    have hsome := PyDict.get?_isSome_of_contains f.files o
      ((PyDict.contains_iff_mem_keys _ _).2 ho)
    cases hg : PyDict.get? f.files o with
    | none => rw [hg] at hsome; exact absurd hsome (by simp)
    | some fr =>
      dsimp only
      have hc : (PyDict.contains f.files nw || PyDict.contains f.subfolders nw) = true := by
        rw [Bool.or_eq_true]
        rcases hnw with hm | hm
        · exact Or.inr ((PyDict.contains_iff_mem_keys _ _).2 hm)
        · exact Or.inl ((PyDict.contains_iff_mem_keys _ _).2 hm)
      rw [if_pos hc]

/-- C1: for every folder satisfying the namespace invariant and every
sequence of add/remove/rename operations, the invariant (subfolder names and
file names are internally unique and mutually disjoint, so a name denotes at
most one child of one kind) holds after every operation; any insertion or
rename whose target name already denotes a child of either kind fails with
`DuplicateNameError`, and every failing operation leaves the folder
unchanged. -/
theorem c1_folder_namespace_invariant (f : Folder) (ops : List FolderOp)
    (hinv : f.childInv) :
    (FolderOp.run f ops).childInv ∧
    (∀ op e, (FolderOp.step (FolderOp.run f ops) op).2 = some e →
      (FolderOp.step (FolderOp.run f ops) op).1 = FolderOp.run f ops) ∧
    (∀ op, FolderOp.dupTarget (FolderOp.run f ops) op →
      (FolderOp.step (FolderOp.run f ops) op).2 = some .duplicateNameError) := by
  have hrun : ∀ (g : Folder), g.childInv → (FolderOp.run g ops).childInv := by
    induction ops with
    | nil => intro g hg; exact hg
    | cons op rest ih =>
      intro g hg
      rw [FolderOp.run]
      exact ih _ (childInv_step g op hg)
  exact ⟨hrun f hinv,
    fun op e h => step_err_unchanged _ op e h,
    fun op h => step_dup _ op h⟩

/-- Witness for C1 at a concrete folder and operation sequence. -/
theorem c1_folder_namespace_invariant_witness :
    (FolderOp.run (Folder.node "r" "Root" "d0" none [] [])
      [FolderOp.addSubfolder (Folder.node "s" "Seqs" "d1" none [] []),
       FolderOp.renameSubfolder "Seqs" "Primers"]).childInv :=
  (c1_folder_namespace_invariant (Folder.node "r" "Root" "d0" none [] [])
    [FolderOp.addSubfolder (Folder.node "s" "Seqs" "d1" none [] []),
     FolderOp.renameSubfolder "Seqs" "Primers"] (by decide)).1


/-! ### C4: the literal segment "Root" is elided during traversal -/

/-- C4 counterexample: in a project whose root folder contains a subfolder
literally named "Root", `get_folder_by_path "Root/Root"` returns the
aggregate root (the folder with id "r" that still lists "Root" as a child),
not the child subfolder (id "c"): the claim that the child is returned is
false. -/
theorem c4_root_root_counterexample :
    (Project.get_folder_by_path
      { id := "p", name := "P", description := "", version := "1.0.0",
        created_date := "d", last_modified := "d", project_file_path := none,
        root_folder := Folder.node "r" "Root" "d" none
          [("Root", Folder.node "c" "Root" "d" (some "r") [] [])] [] }
      "Root/Root")
    = .ok (Folder.node "r" "Root" "d" none
        [("Root", Folder.node "c" "Root" "d" (some "r") [] [])] []) ∧
    Folder.node "r" "Root" "d" none
        [("Root", Folder.node "c" "Root" "d" (some "r") [] [])] []
      ≠ Folder.node "c" "Root" "d" (some "r") [] [] := by
  refine ⟨rfl, fun h => ?_⟩
  exact absurd (congrArg Folder.id h) (by decide)

/-- C4 (amended): for every project whose root folder contains a subfolder
literally named "Root", `get_folder_by_path "Root/Root"` returns the
aggregate root folder itself, not that child: every literal segment "Root"
is elided during traversal, so a child named "Root" directly under the root
is unreachable through the path "Root/Root". -/
theorem c4_root_root_returns_aggregate_root (p : Project)
    (h : "Root" ∈ PyDict.keys p.root_folder.subfolders) :
    p.get_folder_by_path "Root/Root" = .ok p.root_folder := by
  rw [Project.get_folder_by_path, if_neg (by decide)]
  have hp : pathParts "Root/Root" = [] := by decide
  rw [hp, Folder.walk]

/-- Witness for the amended C4 at a concrete project. -/
theorem c4_root_root_returns_aggregate_root_witness :
    (Project.get_folder_by_path
      { id := "p", name := "P", description := "", version := "1.0.0",
        created_date := "d", last_modified := "d", project_file_path := none,
        root_folder := Folder.node "r" "Root" "d" none
          [("Root", Folder.node "c" "Root" "d" (some "r") [] [])] [] }
      "Root/Root")
    = .ok (Folder.node "r" "Root" "d" none
        [("Root", Folder.node "c" "Root" "d" (some "r") [] [])] []) :=
  c4_root_root_returns_aggregate_root
    { id := "p", name := "P", description := "", version := "1.0.0",
      created_date := "d", last_modified := "d", project_file_path := none,
      root_folder := Folder.node "r" "Root" "d" none
        [("Root", Folder.node "c" "Root" "d" (some "r") [] [])] [] }
    (by decide)


/-! ### C8: FileReference name validation -/

/-- C8 counterexample: a `FileReference` whose name contains the reserved
character `<` is constructed successfully — `FileReference.__post_init__`
checks only for an empty name and an empty original path, not for reserved
characters (only `Folder.__post_init__` does) — refuting the claim that
such a construction raises an error. -/
theorem c8_reserved_char_name_counterexample :
    FileReference.make "i" "a<b" "p" "" "" 0 "d" "d" []
      = .ok { id := "i", name := "a<b", original_path := "p", relative_path := "",
              file_type := "", size_bytes := 0, imported_date := "d",
              last_modified := "d", metadata := [] } ∧
    hasInvalidChar "a<b" = true :=
  ⟨rfl, rfl⟩

/-- C8 (amended): every successfully constructed `FileReference` has a
non-empty name (one containing a non-whitespace character) and a non-empty
original path, and construction with an empty or all-whitespace name raises
`FileReferenceError`; the reserved-character restriction applies to Folder
names only — a FileReference name may contain reserved characters. -/
theorem c8_file_reference_name_validation
    (id name original_path relative_path file_type : String) (size_bytes : Nat)
    (imported_date last_modified : String) (metadata : List (String × String)) :
    (∀ fr, FileReference.make id name original_path relative_path file_type
        size_bytes imported_date last_modified metadata = .ok fr →
      stripIsEmpty fr.name = false ∧ fr.name ≠ "" ∧ fr.original_path ≠ "") ∧
    (stripIsEmpty name = true →
      FileReference.make id name original_path relative_path file_type
        size_bytes imported_date last_modified metadata
        = .error .fileReferenceError) := by
  constructor
  · intro fr h
    rw [FileReference.make] at h
    by_cases h1 : stripIsEmpty name = true
    · rw [if_pos h1] at h
      exact absurd h (by simp)
    · rw [if_neg h1] at h
      by_cases h2 : (original_path == "") = true
      · rw [if_pos h2] at h
        exact absurd h (by simp)
      · rw [if_neg h2] at h
        injection h with hfr
        subst hfr
        have h1' : stripIsEmpty name = false := by simpa using h1
        refine ⟨h1', ?_, by simpa using h2⟩
        intro hemp
        apply h1
        have hname : name = "" := hemp
        rw [hname]
        rfl
  · intro hstrip
    rw [FileReference.make, if_pos hstrip]

/-- Witness for the amended C8 at concrete inputs. -/
theorem c8_file_reference_name_validation_witness :
    (stripIsEmpty "x.txt" = false ∧ "x.txt" ≠ "" ∧ "p" ≠ "") ∧
    FileReference.make "i" " " "p" "" "" 0 "d" "d" [] = .error .fileReferenceError :=
  ⟨(c8_file_reference_name_validation "i" "x.txt" "p" "" "" 0 "d" "d" []).1
      { id := "i", name := "x.txt", original_path := "p", relative_path := "",
        file_type := "txt", size_bytes := 0, imported_date := "d",
        last_modified := "d", metadata := [] } rfl,
   (c8_file_reference_name_validation "i" " " "p" "" "" 0 "d" "d" []).2 (by decide)⟩

/-! ### C5: the standard delete path refuses a non-empty subfolder -/

/-- C5: for every project, folder path and subfolder name where the path
resolves and the named subfolder exists but is non-empty (it contains at
least one file or subfolder), the standard non-recursive delete path
(`DeleteItemUseCase.execute` on a folder item) fails with the non-empty
signal (`InvalidOperationError`, surfacing through the generic handler) and
leaves the project unchanged: the non-empty subfolder is not detached. -/
theorem c5_delete_refuses_nonempty_subfolder (p : Project) (path n now : String)
    (folder subfolder : Folder)
    (hres : p.get_folder_by_path path = .ok folder)
    (hsub : PyDict.get? folder.subfolders n = some subfolder)
    (hne : subfolder.is_empty = false) :
    deleteItemExecute p path n false now = (p, some .invalidOperation) := by
  rw [deleteItemExecute, hres]
  dsimp only
  rw [if_neg (by decide)]
  rw [Folder.get_subfolder, hsub]
  dsimp only
  rw [if_pos (show (!subfolder.is_empty) = true by rw [hne]; rfl)]

/-- Witness for C5: a folder "A" containing one file is refused by the
standard delete path. -/
theorem c5_delete_refuses_nonempty_subfolder_witness :
    deleteItemExecute
      { id := "p", name := "P", description := "", version := "1.0.0",
        created_date := "d", last_modified := "d", project_file_path := none,
        root_folder := Folder.node "r" "Root" "d" none
          [("A", Folder.node "a" "A" "d" (some "r") []
            [("f.txt", { id := "f", name := "f.txt", original_path := "/tmp/f.txt",
                         relative_path := "f.txt", file_type := "txt",
                         size_bytes := 1, imported_date := "d",
                         last_modified := "d", metadata := [] })])] [] }
      "Root" "A" false "t"
    = ({ id := "p", name := "P", description := "", version := "1.0.0",
         created_date := "d", last_modified := "d", project_file_path := none,
         root_folder := Folder.node "r" "Root" "d" none
           [("A", Folder.node "a" "A" "d" (some "r") []
             [("f.txt", { id := "f", name := "f.txt", original_path := "/tmp/f.txt",
                          relative_path := "f.txt", file_type := "txt",
                          size_bytes := 1, imported_date := "d",
                          last_modified := "d", metadata := [] })])] [] },
       some .invalidOperation) :=
  c5_delete_refuses_nonempty_subfolder _ "Root" "A" "t" _
    (Folder.node "a" "A" "d" (some "r") []
      [("f.txt", { id := "f", name := "f.txt", original_path := "/tmp/f.txt",
                   relative_path := "f.txt", file_type := "txt",
                   size_bytes := 1, imported_date := "d",
                   last_modified := "d", metadata := [] })])
    rfl rfl rfl


/-! ### C7: load error classification -/

theorem requireKey_obj (kvs : List (String × Json)) (k : String) :
    requireKey (Json.obj kvs) k
      = if PyDict.contains kvs k then Except.ok ()
        else Except.error DataErr.corruptedProjectError := by
  rw [requireKey]
  dsimp only [pyNotIn]
  cases hc : PyDict.contains kvs k with
  | true => simp
  | false => simp

theorem requireKey_error_classes (d : Json) (k : String) (e : DataErr)
    (h : requireKey d k = .error e) :
    e = .pyError ∨ e = .corruptedProjectError := by
  rw [requireKey] at h
  cases hni : pyNotIn d k with
  | error u =>
    rw [hni] at h
    dsimp only at h
    injection h with h'
    exact Or.inl h'.symm
  | ok b =>
    rw [hni] at h
    cases b with
    | true =>
      dsimp only at h
      injection h with h'
      exact Or.inr h'.symm
    | false =>
      dsimp only at h
      exact absurd h (by simp)

theorem requireKeys_error_classes (d : Json) (ks : List String) (e : DataErr)
    (h : requireKeys d ks = .error e) :
    e = .pyError ∨ e = .corruptedProjectError := by
  induction ks with
  | nil =>
    rw [requireKeys] at h
    exact absurd h (by simp)
  | cons k rest ih =>
    rw [requireKeys] at h
    cases hk : requireKey d k with
    | error e1 =>
      rw [hk] at h
      dsimp only at h
      injection h with h'
      subst h'
      exact requireKey_error_classes d k _ hk
    | ok u =>
      rw [hk] at h
      dsimp only at h
      exact ih h

theorem validate_error_classes (data : Json) (e : DataErr)
    (h : validate_project_data data = .error e) :
    e = .pyError ∨ e = .corruptedProjectError := by
  rw [validate_project_data] at h
  cases h1 : requireKeys data ["project_info", "folder_structure"] with
  | error e1 =>
    rw [h1] at h
    dsimp only at h
    injection h with h'
    subst h'
    exact requireKeys_error_classes _ _ _ h1
  | ok u1 =>
    rw [h1] at h
    dsimp only at h
    cases h2 : pyIndex data "project_info" with
    | error u =>
      rw [h2] at h
      dsimp only at h
      injection h with h'
      exact Or.inl h'.symm
    | ok pi =>
      rw [h2] at h
      dsimp only at h
      cases h3 : requireKeys pi ["id", "name", "created_date", "last_modified"] with
      | error e3 =>
        rw [h3] at h
        dsimp only at h
        injection h with h'
        subst h'
        exact requireKeys_error_classes _ _ _ h3
      | ok u3 =>
        rw [h3] at h
        dsimp only at h
        cases h4 : pyIndex data "folder_structure" with
        | error u =>
          rw [h4] at h
          dsimp only at h
          injection h with h'
          exact Or.inl h'.symm
        | ok fsj =>
          rw [h4] at h
          dsimp only at h
          exact requireKeys_error_classes _ _ _ h

/-- C7: a file whose content is not valid JSON fails with
`JsonSerializationError`; a file parsing to a JSON object that lacks the
top-level key `project_info` or `folder_structure` fails with the distinct
`CorruptedProjectError`; and a load from any successfully parsed document
never produces `JsonSerializationError` — the two classes are never
interchanged. -/
theorem c7_load_error_classes :
    load_project none = .error .jsonSerializationError ∧
    (∀ kvs, (PyDict.contains kvs "project_info" = false ∨
             PyDict.contains kvs "folder_structure" = false) →
      load_project (some (.obj kvs)) = .error .corruptedProjectError) ∧
    (∀ j, load_project (some j) ≠ .error .jsonSerializationError) := by
  refine ⟨rfl, ?_, ?_⟩
  · intro kvs hmiss
    have hval : validate_project_data (.obj kvs) = .error .corruptedProjectError := by
      rw [validate_project_data]
      have hkeys : requireKeys (.obj kvs) ["project_info", "folder_structure"]
          = .error .corruptedProjectError := by
        rcases hmiss with hm | hm
        · rw [requireKeys, requireKey_obj, hm]
          rfl
        · rw [requireKeys, requireKey_obj]
          cases hc : PyDict.contains kvs "project_info" with
          | false => rfl
          | true =>
            show requireKeys (.obj kvs) ["folder_structure"]
              = .error .corruptedProjectError
            rw [requireKeys, requireKey_obj, hm]
            rfl
      rw [hkeys]
    rw [load_project, hval]
  · intro j hcontra
    rw [load_project] at hcontra
    cases hv : validate_project_data j with
    | error e =>
      rw [hv] at hcontra
      dsimp only at hcontra
      injection hcontra with h'
      subst h'
      rcases validate_error_classes j _ hv with h | h <;> exact absurd h (by simp)
    | ok u =>
      rw [hv] at hcontra
      dsimp only at hcontra
      cases hf : Project.from_dict j with
      | none =>
        rw [hf] at hcontra
        dsimp only at hcontra
        injection hcontra with h'
        exact absurd h' (by simp)
      | some pr =>
        rw [hf] at hcontra
        dsimp only at hcontra
        exact absurd hcontra (by simp)

/-- Witness for C7: an empty JSON object is rejected as corrupted. -/
theorem c7_load_error_classes_witness :
    load_project (some (.obj [])) = .error .corruptedProjectError :=
  c7_load_error_classes.2.1 [] (Or.inl rfl)


/-! ### C3: backup precedes any write; failures abort before the rename -/

theorem backupPath_render_ne (pp : PPath) (ts : String) :
    (backupPath pp ts).render ≠ pp.render := by
  intro h
  have hl := congrArg String.length h
  simp only [PPath.render, backupPath, String.length_append] at hl
  have h8 : "_backup_".length = 8 := rfl
  omega

theorem tempPath_render_ne (pp : PPath) :
    (tempPath pp).render ≠ pp.render := by
  intro h
  have hl := congrArg String.length h
  simp only [PPath.render, tempPath, String.length_append] at hl
  have h4 : ".tmp".length = 4 := rfl
  omega

theorem backupPath_render_ne_temp (pp : PPath) (ts : String) :
    (backupPath pp ts).render ≠ (tempPath pp).render := by
  intro h
  have hl := congrArg String.length h
  simp only [PPath.render, backupPath, tempPath, String.length_append] at hl
  have h8 : "_backup_".length = 8 := rfl
  have h4 : ".tmp".length = 4 := rfl
  omega

theorem save_project_eval (fs : FS) (pp : PPath) (ts content : String)
    (sr wr rr : Bool) (hexists : PyDict.contains fs pp.render = true) :
    save_project fs (some pp) true ts content ⟨false, sr, wr, rr⟩
      = (let fs1 := PyDict.set fs (backupPath pp ts).render
           ((PyDict.get? fs pp.render).getD "");
         if sr = true then (fs1, some .jsonSerializationError)
         else if wr = true then (fs1, some .projectFileError)
         else if rr = true then
           (PyDict.del (PyDict.set fs1 (tempPath pp).render content)
             (tempPath pp).render, some .projectFileError)
         else
           (PyDict.set
             (PyDict.del (PyDict.set fs1 (tempPath pp).render content)
               (tempPath pp).render) pp.render content, none)) := by
  rw [save_project]
  dsimp only
  rw [if_pos (show (true && PyDict.contains fs pp.render) = true by rw [hexists]; rfl)]
  rfl

/-- C3: for every save with `backup = true` over a disk on which the
project file exists: if the backup copy raises, the save aborts with
`BackupError` and the disk is unchanged — in particular the temporary
file was never written; on every failing save (backup, serialization,
write or rename) the previous project file's content is intact; and on a
successful save the timestamped backup sibling holds the previous content
while the project file holds the newly serialized content — the project
file is written only by the final atomic rename, after the backup copy. -/
theorem c3_save_backup_atomicity (fs : FS) (pp : PPath) (ts content : String)
    (env : SaveEnv) (hexists : PyDict.contains fs pp.render = true) :
    (env.backupRaises = true →
      save_project fs (some pp) true ts content env = (fs, some .backupError)) ∧
    (∀ e, (save_project fs (some pp) true ts content env).2 = some e →
      PyDict.get? (save_project fs (some pp) true ts content env).1 pp.render
        = PyDict.get? fs pp.render) ∧
    ((save_project fs (some pp) true ts content env).2 = none →
      PyDict.get? (save_project fs (some pp) true ts content env).1
          (backupPath pp ts).render = PyDict.get? fs pp.render ∧
      PyDict.get? (save_project fs (some pp) true ts content env).1 pp.render
        = some content) := by
  have hne_b := backupPath_render_ne pp ts
  have hne_t := tempPath_render_ne pp
  have hne_bt := backupPath_render_ne_temp pp ts
  obtain ⟨v, hv⟩ : ∃ v, PyDict.get? fs pp.render = some v :=
    Option.isSome_iff_exists.1 (PyDict.get?_isSome_of_contains _ _ hexists)
  obtain ⟨br, sr, wr, rr⟩ := env
  cases br with
  | true =>
    have hsave : save_project fs (some pp) true ts content ⟨true, sr, wr, rr⟩
        = (fs, some .backupError) := by
      rw [save_project]
      dsimp only
      rw [if_pos (show (true && PyDict.contains fs pp.render) = true by
        rw [hexists]; rfl)]
      rfl
    refine ⟨fun _ => hsave, ?_, ?_⟩
    · intro e _
      rw [hsave]
    · intro hnone
      rw [hsave] at hnone
      exact absurd hnone (by simp)
  | false =>
    have heval := save_project_eval fs pp ts content sr wr rr hexists
    refine ⟨fun hbr => absurd hbr (by simp), ?_, ?_⟩
    · intro e he
      rw [heval] at he ⊢
      dsimp only at he ⊢
      cases sr with
      | true =>
        rw [if_pos rfl]
        exact PyDict.get?_set_ne fs _ pp.render _ (Ne.symm hne_b)
      | false =>
        cases wr with
        | true =>
          rw [if_neg Bool.false_ne_true, if_pos rfl]
          exact PyDict.get?_set_ne fs _ pp.render _ (Ne.symm hne_b)
        | false =>
          cases rr with
          | true =>
            rw [if_neg Bool.false_ne_true, if_neg Bool.false_ne_true, if_pos rfl]
            rw [PyDict.get?_del_ne _ _ pp.render (Ne.symm hne_t),
                PyDict.get?_set_ne _ _ pp.render _ (Ne.symm hne_t),
                PyDict.get?_set_ne fs _ pp.render _ (Ne.symm hne_b)]
          | false =>
            rw [if_neg Bool.false_ne_true, if_neg Bool.false_ne_true,
                if_neg Bool.false_ne_true] at he
            exact absurd he (by simp)
    · intro hnone
      rw [heval] at hnone ⊢
      dsimp only at hnone ⊢
      cases sr with
      | true =>
        rw [if_pos rfl] at hnone
        exact absurd hnone (by simp)
      | false =>
        cases wr with
        | true =>
          rw [if_neg Bool.false_ne_true, if_pos rfl] at hnone
          exact absurd hnone (by simp)
        | false =>
          cases rr with
          | true =>
            rw [if_neg Bool.false_ne_true, if_neg Bool.false_ne_true,
                if_pos rfl] at hnone
            exact absurd hnone (by simp)
          | false =>
            rw [if_neg Bool.false_ne_true, if_neg Bool.false_ne_true,
                if_neg Bool.false_ne_true]
            constructor
            · rw [PyDict.get?_set_ne _ _ (backupPath pp ts).render _ hne_b,
                  PyDict.get?_del_ne _ _ (backupPath pp ts).render hne_bt,
                  PyDict.get?_set_ne _ _ (backupPath pp ts).render _ hne_bt,
                  PyDict.get?_set_self, hv]
              rfl
            · exact PyDict.get?_set_self _ _ _

/-- Witness for C3: a successful backed-up save over a one-file disk. -/
theorem c3_save_backup_atomicity_witness :
    PyDict.get? (save_project [((PPath.mk "" "p" ".oligoproj").render, "old")]
        (some (PPath.mk "" "p" ".oligoproj")) true "T" "new"
        ⟨false, false, false, false⟩).1
      (backupPath (PPath.mk "" "p" ".oligoproj") "T").render
      = PyDict.get? [((PPath.mk "" "p" ".oligoproj").render, "old")]
          (PPath.mk "" "p" ".oligoproj").render ∧
    PyDict.get? (save_project [((PPath.mk "" "p" ".oligoproj").render, "old")]
        (some (PPath.mk "" "p" ".oligoproj")) true "T" "new"
        ⟨false, false, false, false⟩).1
      (PPath.mk "" "p" ".oligoproj").render = some "new" :=
  (c3_save_backup_atomicity [((PPath.mk "" "p" ".oligoproj").render, "old")]
    (PPath.mk "" "p" ".oligoproj") "T" "new" ⟨false, false, false, false⟩
    (by decide)).2.2 (by decide)


/-! ### Path traversal vs path-based mutation -/

theorem walk_applyAt (parts : List String) (f x : Folder) (g : Folder → Folder × β)
    (h : f.walk parts = .ok x) :
    ∃ f', f.applyAt parts g = some (f', (g x).2) ∧ f'.walk parts = .ok ((g x).1) := by
  induction parts generalizing f with
  | nil =>
    rw [Folder.walk] at h
    injection h with hx
    subst hx
    refine ⟨(g f).1, ?_, ?_⟩
    · rw [Folder.applyAt]
    · rw [Folder.walk]
  | cons part rest ih =>
    rw [Folder.walk] at h
    cases hg : PyDict.get? f.subfolders part with
    | none =>
      rw [hg] at h
      exact absurd h (by simp)
    | some sub =>
      rw [hg] at h
      dsimp only at h
      obtain ⟨sub', happly, hwalk⟩ := ih sub h
      refine ⟨f.withSubfolders (PyDict.set f.subfolders part sub'), ?_, ?_⟩
      · rw [Folder.applyAt, hg]
        dsimp only
        rw [happly]
      · rw [Folder.walk, Folder.withSubfolders_subfolders, PyDict.get?_set_self]
        exact hwalk

theorem pathParts_special (path : String)
    (hc : (path == "" || path == "/" || path == "Root") = true) :
    pathParts path = [] := by
  rw [Bool.or_eq_true, Bool.or_eq_true] at hc
  rcases hc with (hc | hc) | hc <;> (rw [beq_iff_eq] at hc; subst hc; decide)

theorem get_folder_by_path_eq_walk (p : Project) (path : String) :
    p.get_folder_by_path path = p.root_folder.walk (pathParts path) := by
  rw [Project.get_folder_by_path]
  by_cases hc : (path == "" || path == "/" || path == "Root") = true
  · rw [if_pos hc, pathParts_special path hc, Folder.walk]
  · rw [if_neg hc]

theorem applyAtPath_of_get (p : Project) (path : String) (x : Folder)
    (g : Folder → Folder × β) (h : p.get_folder_by_path path = .ok x) :
    ∃ f', p.applyAtPath path g = some ({ p with root_folder := f' }, (g x).2) ∧
      f'.walk (pathParts path) = .ok ((g x).1) := by
  rw [get_folder_by_path_eq_walk] at h
  obtain ⟨f', happly, hwalk⟩ := walk_applyAt _ _ _ g h
  exact ⟨f', by rw [Project.applyAtPath, happly], hwalk⟩

/-! ### C6: import name-collision resolution -/

theorem resolveImportName_free (exfs : List String) (file_name : String) (counter : Nat) :
    ("imported_files/" ++ resolveImportName exfs file_name counter) ∉ exfs := by
  rw [resolveImportName]
  by_cases h : ("imported_files/" ++ file_name) ∈ exfs
  · rw [dif_pos h]
    exact resolveImportName_free exfs _ (counter + 1)
  · rw [dif_neg h]
    exact h
termination_by (exfs.map String.length).foldr max 0 + 1 - file_name.length
decreasing_by
  have hsplit : (pyStem file_name).length + (pyExtSuffix file_name).length
      = file_name.length := by
    rw [pyStem, pyExtSuffix, pySplitExt]
    cases lastDotIdx file_name.data with
    | none => simp
    | some i =>
      by_cases hc : 0 < i ∧ i + 1 < file_name.data.length
      · simp only [hc, if_true]
        show (file_name.data.take i).length + (file_name.data.drop i).length
            = file_name.data.length
        rw [List.length_take, List.length_drop]
        omega
      · simp only [hc, if_false]
        simp
  have haux : ∀ (l : List String), ("imported_files/" ++ file_name) ∈ l →
      ("imported_files/" ++ file_name).length ≤ (l.map String.length).foldr max 0 := by
    intro l
    induction l with
    | nil => intro hx; cases hx
    | cons a t ih =>
      intro hx
      rcases List.mem_cons.1 hx with heq | hmem
      · simp only [List.map_cons, List.foldr_cons]
        rw [heq]
        exact le_max_left _ _
      · simp only [List.map_cons, List.foldr_cons]
        exact le_trans (ih hmem) (le_max_right _ _)
  have hA := haux exfs h
  rw [String.length_append] at hA
  have h15 : ("imported_files/").length = 15 := rfl
  have hnew : (pyStem file_name ++ "_" ++ toString counter ++ pyExtSuffix file_name).length
      = (pyStem file_name).length + "_".length + (toString counter).length
        + (pyExtSuffix file_name).length := by
    rw [String.length_append, String.length_append, String.length_append]
  have h1 : "_".length = 1 := rfl
  omega

theorem fileReference_make_ok (id name original_path relative_path file_type : String)
    (size_bytes : Nat) (imported_date last_modified : String)
    (metadata : List (String × String))
    (h1 : stripIsEmpty name = false) (h2 : original_path ≠ "") :
    FileReference.make id name original_path relative_path file_type size_bytes
        imported_date last_modified metadata
      = .ok { id := id, name := name, original_path := original_path,
              relative_path := relative_path,
              file_type := if (file_type == "") = true then inferFileType name
                else file_type,
              size_bytes := size_bytes, imported_date := imported_date,
              last_modified := last_modified, metadata := metadata } := by
  rw [FileReference.make, if_neg (by rw [h1]; exact Bool.false_ne_true),
      if_neg (by simpa using h2)]

theorem add_file_to_path_ok (p : Project) (path : String) (tf : Folder)
    (fr : FileReference) (now : String)
    (hres : p.get_folder_by_path path = .ok tf)
    (hcf : PyDict.contains tf.files fr.name = false)
    (hcs : PyDict.contains tf.subfolders fr.name = false) :
    ∃ f', p.add_file_to_path path fr now
      = ({ p with root_folder := f', last_modified := now }, none) := by
  obtain ⟨f', happ, _⟩ := applyAtPath_of_get p path tf (fun f => f.add_file fr) hres
  have hsnd : (tf.add_file fr).2 = none := by
    rw [Folder.add_file, if_neg (by rw [hcf]; exact Bool.false_ne_true),
        if_neg (by rw [hcs]; exact Bool.false_ne_true)]
  refine ⟨f', ?_⟩
  rw [Project.add_file_to_path, hres]
  dsimp only
  rw [hsnd] at happ
  rw [happ]

/-- C6: the stored name is resolved by the incrementing-suffix loop until a
free name is found — the resolved storage path never exists on disk; in the
second-import situation (the plain name is taken, its first suffixed form is
free) the resolved name is `{stem}_1{suffix}`; and the import then
completes, storing the suffixed file and registering the reference in the
target folder without any `DuplicateNameError`. -/
theorem c6_import_collision_suffix :
    (∀ (exfs : List String) (n : String) (c : Nat),
      ("imported_files/" ++ resolveImportName exfs n c) ∉ exfs) ∧
    (∀ (exfs : List String) (n : String),
      ("imported_files/" ++ n) ∈ exfs →
      ("imported_files/" ++ (pyStem n ++ "_1" ++ pyExtSuffix n)) ∉ exfs →
      resolveImportName exfs n 1 = pyStem n ++ "_1" ++ pyExtSuffix n) ∧
    (∀ (exfs : List String) (p : Project)
        (source_path source_name target : String) (size : Nat)
        (fresh_id now : String) (tf : Folder),
      p.get_folder_by_path target = .ok tf →
      stripIsEmpty (resolveImportName exfs source_name 1) = false →
      source_path ≠ "" →
      PyDict.contains tf.files (resolveImportName exfs source_name 1) = false →
      PyDict.contains tf.subfolders (resolveImportName exfs source_name 1) = false →
      ∃ (p' : Project) (fr : FileReference),
        import_file_to_project exfs p source_path source_name true target size
            fresh_id now
          = (exfs ++ ["imported_files/" ++ resolveImportName exfs source_name 1],
             p', .ok fr) ∧
        fr.name = resolveImportName exfs source_name 1) := by
  have hname : ∀ n : String,
      pyStem n ++ "_" ++ toString (1 : Nat) ++ pyExtSuffix n
        = pyStem n ++ "_1" ++ pyExtSuffix n := by
    intro n
    rw [String.append_assoc (pyStem n) "_" (toString (1 : Nat))]
    rfl
  refine ⟨resolveImportName_free, ?_, ?_⟩
  · intro exfs n hmem hfree
    rw [resolveImportName, dif_pos hmem, resolveImportName]
    rw [dif_neg (by rw [hname n]; exact hfree)]
    exact hname n
  · intro exfs p source_path source_name target size fresh_id now tf
      hres hstrip hpath hcf hcs
    have hmk := fileReference_make_ok fresh_id (resolveImportName exfs source_name 1)
      source_path ("imported_files/" ++ resolveImportName exfs source_name 1) ""
      size now now [("imported_copy", "true"), ("import_date", now)] hstrip hpath
    rw [import_file_to_project, if_neg (by decide)]
    dsimp only
    rw [hmk]
    dsimp only
    obtain ⟨f', hadd⟩ := add_file_to_path_ok p target tf
      { id := fresh_id, name := resolveImportName exfs source_name 1,
        original_path := source_path,
        relative_path := "imported_files/" ++ resolveImportName exfs source_name 1,
        file_type := if ("" == "") = true then
            inferFileType (resolveImportName exfs source_name 1) else "",
        size_bytes := size, imported_date := now, last_modified := now,
        metadata := [("imported_copy", "true"), ("import_date", now)] }
      now hres hcf hcs
    rw [hadd]
    exact ⟨_, _, rfl, rfl⟩

/-- Witness for C6 part (c): importing `a.fasta` into `Root/Sequences` when
`imported_files/a.fasta` already exists stores `a_1.fasta` and registers
the reference without `DuplicateNameError`. -/
theorem c6_import_collision_suffix_witness :
    ∃ (p' : Project) (fr : FileReference),
      import_file_to_project ["imported_files/a.fasta"]
        { id := "p", name := "P", description := "", version := "1.0.0",
          created_date := "d", last_modified := "d", project_file_path := none,
          root_folder := Folder.node "r" "Root" "d" none
            [("Sequences", Folder.node "s" "Sequences" "d" (some "r") []
              [("a.fasta", { id := "f0", name := "a.fasta",
                             original_path := "/tmp/a.fasta",
                             relative_path := "imported_files/a.fasta",
                             file_type := "fasta", size_bytes := 4,
                             imported_date := "d", last_modified := "d",
                             metadata := [] })])] [] }
        "/tmp/a.fasta" "a.fasta" true "Root/Sequences" 4 "f1" "t"
        = (["imported_files/a.fasta",
            "imported_files/"
              ++ resolveImportName ["imported_files/a.fasta"] "a.fasta" 1],
           p', .ok fr) ∧
      fr.name = resolveImportName ["imported_files/a.fasta"] "a.fasta" 1 := by
  have hr : resolveImportName ["imported_files/a.fasta"] "a.fasta" 1 = "a_1.fasta" := by
    rw [resolveImportName, dif_pos (by decide), resolveImportName,
        dif_neg (by decide)]
    decide
  exact c6_import_collision_suffix.2.2 ["imported_files/a.fasta"]
    { id := "p", name := "P", description := "", version := "1.0.0",
      created_date := "d", last_modified := "d", project_file_path := none,
      root_folder := Folder.node "r" "Root" "d" none
        [("Sequences", Folder.node "s" "Sequences" "d" (some "r") []
          [("a.fasta", { id := "f0", name := "a.fasta",
                         original_path := "/tmp/a.fasta",
                         relative_path := "imported_files/a.fasta",
                         file_type := "fasta", size_bytes := 4,
                         imported_date := "d", last_modified := "d",
                         metadata := [] })])] [] }
    "/tmp/a.fasta" "a.fasta" "Root/Sequences" 4 "f1" "t"
    (Folder.node "s" "Sequences" "d" (some "r") []
      [("a.fasta", { id := "f0", name := "a.fasta",
                     original_path := "/tmp/a.fasta",
                     relative_path := "imported_files/a.fasta",
                     file_type := "fasta", size_bytes := 4,
                     imported_date := "d", last_modified := "d",
                     metadata := [] })])
    rfl (by rw [hr]; decide) (by decide) (by rw [hr]; decide) (by rw [hr]; decide)


/-! ### C2: serialization round-trip -/

theorem decodeMetadataList_roundtrip (md : List (String × String)) :
    decodeMetadataList (md.map (fun p => (p.1, Json.str p.2))) = some md := by
  induction md with
  | nil => rfl
  | cons p rest ih =>
    obtain ⟨k, v⟩ := p
    rw [List.map_cons, decodeMetadataList, ih]
    rfl

theorem fileReference_from_to (fr : FileReference) (h : fr.wellFormed = true) :
    FileReference.from_dict fr.to_dict = some fr := by
  obtain ⟨i, nm, op, rp, ft, sb, idt, lm, md⟩ := fr
  rw [FileReference.wellFormed, Bool.and_eq_true, Bool.and_eq_true] at h
  obtain ⟨⟨h1, h2⟩, h3⟩ := h
  simp only at h1 h2 h3
  have h1' : stripIsEmpty nm = false := by
    rw [Bool.not_eq_true'] at h1
    exact h1
  have h2' : op ≠ "" := by
    rw [Bool.not_eq_true', beq_eq_false_iff_ne] at h2
    exact h2
  rw [FileReference.to_dict, FileReference.from_dict]
  simp only [PyDict.get?, List.find?, Json.asStr, Json.asNum, Option.bind,
    decodeMetadata, beq_self_eq_true, String.reduceBEq, String.reduceEq,
    Option.map_some', decodeMetadataList_roundtrip, Option.some_bind,
    Option.bind_eq_bind]
  rw [fileReference_make_ok i nm op rp ft sb idt lm md h1' h2']
  simp only [Except.toOption, Option.some.injEq, FileReference.mk.injEq,
    eq_self_iff_true, true_and, and_true]
  by_cases hft : (ft == "") = true
  · rw [if_pos hft]
    rw [Bool.or_eq_true] at h3
    rcases h3 with h3 | h3
    · rw [hft] at h3
      cases h3
    · rw [beq_iff_eq] at h3 hft
      rw [h3, hft]
  · rw [if_neg hft]

theorem folder_make_ok (id name created_date : String) (parent_id : Option String)
    (subs : List (String × Folder)) (fls : List (String × FileReference))
    (h1 : stripIsEmpty name = false) (h2 : hasInvalidChar name = false) :
    Folder.make id name created_date parent_id subs fls
      = .ok (.node id name created_date parent_id subs fls) := by
  rw [Folder.make, if_neg (by rw [h1]; exact Bool.false_ne_true),
      if_neg (by rw [h2]; exact Bool.false_ne_true)]

theorem filesList_from_to (l : List (String × FileReference))
    (h : l.all (fun p => p.2.wellFormed) = true) :
    filesFromList (l.map (fun p => (p.1, p.2.to_dict))) = some l := by
  induction l with
  | nil => rfl
  | cons p rest ih =>
    rw [List.all_cons, Bool.and_eq_true] at h
    obtain ⟨hp, hrest⟩ := h
    obtain ⟨nm, fr⟩ := p
    rw [List.map_cons, filesFromList, fileReference_from_to fr hp, ih hrest]

mutual

theorem folder_from_to : ∀ (f : Folder), f.wellFormed = true →
    Folder.from_dict f.to_dict = some f
  | .node i nm cd pid subs fls, h => by
    rw [Folder.wellFormed, Bool.and_eq_true, Bool.and_eq_true,
        Bool.and_eq_true] at h
    obtain ⟨⟨⟨h1, h2⟩, h3⟩, h4⟩ := h
    have h1' : stripIsEmpty nm = false := by rwa [Bool.not_eq_true'] at h1
    have h2' : hasInvalidChar nm = false := by rwa [Bool.not_eq_true'] at h2
    rw [Folder.to_dict.eq_def]
    simp only [Folder.from_dict]
    simp only [PyDict.get?, List.find?, String.reduceBEq, String.reduceEq,
      beq_self_eq_true, Option.map_some', Option.some_bind, Option.bind_eq_bind,
      Option.bind, Json.asStr, Json.asOptStr]
    cases pid with
    | none =>
      dsimp only
      rw [folder_make_ok i nm cd none [] [] h1' h2']
      dsimp only
      rw [foldersList_from_to subs h4]
      dsimp only
      simp only [doFiles, PyDict.get?, List.find?, String.reduceBEq,
        beq_self_eq_true, Option.map_some']
      rw [filesList_from_to fls h3]
      rfl
    | some s =>
      dsimp only
      rw [folder_make_ok i nm cd (some s) [] [] h1' h2']
      dsimp only
      rw [foldersList_from_to subs h4]
      dsimp only
      simp only [doFiles, PyDict.get?, List.find?, String.reduceBEq,
        beq_self_eq_true, Option.map_some']
      rw [filesList_from_to fls h3]
      rfl

theorem foldersList_from_to : ∀ (l : List (String × Folder)),
    foldersWellFormed l = true → foldersFromList (foldersToList l) = some l
  | [], _ => by
    rw [foldersToList]
    simp only [foldersFromList]
  | (nm, f) :: rest, h => by
    rw [foldersWellFormed, Bool.and_eq_true] at h
    obtain ⟨hf, hrest⟩ := h
    rw [foldersToList]
    simp only [foldersFromList]
    rw [folder_from_to f hf, foldersList_from_to rest hrest]

end

/-- C2: for every well-formed project (one whose fields satisfy what the
constructors' `__post_init__` validation establishes),
`Project.from_dict (p.to_dict) = some p`: deserializing the serialized form
reproduces an equal project — in particular the folder tree has the same
folder names, file names, file types, sizes and metadata maps at every
level of nesting. -/
theorem c2_project_roundtrip (p : Project) (h : p.wellFormed = true) :
    Project.from_dict p.to_dict = some p := by
  obtain ⟨i, nm, desc, ver, cd, lm, pfp, root⟩ := p
  rw [Project.wellFormed, Bool.and_eq_true] at h
  obtain ⟨h1, h2⟩ := h
  simp only at h1 h2
  have h1' : stripIsEmpty nm = false := by rwa [Bool.not_eq_true'] at h1
  rw [Project.to_dict]
  simp only [Project.from_dict]
  simp only [PyDict.get?, List.find?, String.reduceBEq, String.reduceEq,
    beq_self_eq_true, Option.map_some', Option.some_bind, Option.bind_eq_bind,
    Option.bind, Json.asStr, Json.asOptStr]
  cases pfp with
  | none =>
    dsimp only
    rw [folder_from_to root h2]
    dsimp only
    rw [Project.make, if_neg (by rw [h1']; exact Bool.false_ne_true)]
    rfl
  | some sp =>
    dsimp only
    rw [folder_from_to root h2]
    dsimp only
    rw [Project.make, if_neg (by rw [h1']; exact Bool.false_ne_true)]
    rfl

/-- Witness for C2 on a two-level project with files and metadata. -/
theorem c2_project_roundtrip_witness :
    Project.from_dict (Project.to_dict
      { id := "p", name := "P", description := "demo", version := "1.0.0",
        created_date := "d0", last_modified := "d1",
        project_file_path := some "/tmp/p.oligoproj",
        root_folder := Folder.node "r" "Root" "d0" none
          [("Sequences", Folder.node "s" "Sequences" "d0" (some "r")
            [("Primers", Folder.node "q" "Primers" "d0" (some "s") [] [])]
            [("a.fasta", { id := "f0", name := "a.fasta",
                           original_path := "/tmp/a.fasta",
                           relative_path := "imported_files/a.fasta",
                           file_type := "fasta", size_bytes := 4,
                           imported_date := "d0", last_modified := "d1",
                           metadata := [("imported_copy", "true")] })])] [] })
    = some
      { id := "p", name := "P", description := "demo", version := "1.0.0",
        created_date := "d0", last_modified := "d1",
        project_file_path := some "/tmp/p.oligoproj",
        root_folder := Folder.node "r" "Root" "d0" none
          [("Sequences", Folder.node "s" "Sequences" "d0" (some "r")
            [("Primers", Folder.node "q" "Primers" "d0" (some "s") [] [])]
            [("a.fasta", { id := "f0", name := "a.fasta",
                           original_path := "/tmp/a.fasta",
                           relative_path := "imported_files/a.fasta",
                           file_type := "fasta", size_bytes := 4,
                           imported_date := "d0", last_modified := "d1",
                           metadata := [("imported_copy", "true")] })])] [] } :=
  c2_project_roundtrip
    { id := "p", name := "P", description := "demo", version := "1.0.0",
      created_date := "d0", last_modified := "d1",
      project_file_path := some "/tmp/p.oligoproj",
      root_folder := Folder.node "r" "Root" "d0" none
        [("Sequences", Folder.node "s" "Sequences" "d0" (some "r")
          [("Primers", Folder.node "q" "Primers" "d0" (some "s") [] [])]
          [("a.fasta", { id := "f0", name := "a.fasta",
                         original_path := "/tmp/a.fasta",
                         relative_path := "imported_files/a.fasta",
                         file_type := "fasta", size_bytes := 4,
                         imported_date := "d0", last_modified := "d1",
                         metadata := [("imported_copy", "true")] })])] [] }
    (by decide)



/-! ### Further dictionary and folder-operation lemmas (for C9, C10) -/

theorem pydict_get?_del_self (l : List (String × α)) (k : String) :
    PyDict.get? (PyDict.del l k) k = none := by
  rw [PyDict.get?,
      PyDict.not_contains_find?_eq_none _ _ (PyDict.not_contains_del l k)]
  rfl

theorem pydict_keys_set_of_contains (l : List (String × α)) (k : String) (v : α)
    (h : PyDict.contains l k = true) :
    PyDict.keys (PyDict.set l k v) = PyDict.keys l := by
  rw [PyDict.set, if_pos h, PyDict.keys, PyDict.keys, List.map_map]
  apply List.map_congr_left
  intro p _
  simp only [Function.comp]
  by_cases hp : p.1 = k
  · rw [if_pos (by simpa using hp), hp]
  · rw [if_neg (by simpa using hp)]

theorem pydict_get?_mem (l : List (String × α)) (k : String) (v : α)
    (h : PyDict.get? l k = some v) : (k, v) ∈ l := by
  rw [PyDict.get?] at h
  cases hfind : l.find? (fun p => p.1 == k) with
  | none => rw [hfind] at h; exact absurd h (by simp)
  | some pr =>
    rw [hfind] at h
    have hk := List.find?_some hfind
    simp only [beq_iff_eq] at hk
    have hm := List.mem_of_find?_eq_some hfind
    simp only [Option.map_some', Option.some.injEq] at h
    have : pr = (k, v) := by
      obtain ⟨a, b⟩ := pr
      simp only at hk h
      rw [hk, h]
    rw [← this]
    exact hm

theorem remove_file_spec (f : Folder) (n : String) (fr : FileReference)
    (h : PyDict.get? f.files n = some fr) :
    f.remove_file n = (f.withFiles (PyDict.del f.files n), .ok fr) := by
  rw [Folder.remove_file, h]

theorem remove_subfolder_spec (f : Folder) (n : String) (sub : Folder)
    (h : PyDict.get? f.subfolders n = some sub) :
    f.remove_subfolder n
      = (f.withSubfolders (PyDict.del f.subfolders n), .ok (sub.withParent none)) := by
  rw [Folder.remove_subfolder, h]

theorem add_file_dup (f : Folder) (fr : FileReference)
    (h : PyDict.contains f.files fr.name = true ∨
         PyDict.contains f.subfolders fr.name = true) :
    f.add_file fr = (f, some .duplicateNameError) := by
  rw [Folder.add_file]
  rcases h with h | h
  · rw [if_pos h]
  · by_cases h1 : PyDict.contains f.files fr.name = true
    · rw [if_pos h1]
    · rw [if_neg h1, if_pos h]

theorem add_subfolder_dup (f g : Folder)
    (h : PyDict.contains f.subfolders g.name = true ∨
         PyDict.contains f.files g.name = true) :
    f.add_subfolder g = (f, some .duplicateNameError) := by
  rw [Folder.add_subfolder]
  rcases h with h | h
  · rw [if_pos h]
  · by_cases h1 : PyDict.contains f.subfolders g.name = true
    · rw [if_pos h1]
    · rw [if_neg h1, if_pos h]

theorem add_file_spec_ok (f : Folder) (fr : FileReference)
    (h1 : PyDict.contains f.files fr.name = false)
    (h2 : PyDict.contains f.subfolders fr.name = false) :
    f.add_file fr = (f.withFiles (PyDict.set f.files fr.name fr), none) := by
  rw [Folder.add_file, if_neg (by rw [h1]; exact Bool.false_ne_true),
      if_neg (by rw [h2]; exact Bool.false_ne_true)]

theorem make_ok_id (i nm op rp ft : String) (sb : Nat) (idt lm : String)
    (md : List (String × String)) (fr : FileReference)
    (h : FileReference.make i nm op rp ft sb idt lm md = .ok fr) : fr.id = i := by
  rw [FileReference.make] at h
  by_cases h1 : stripIsEmpty nm = true
  · rw [if_pos h1] at h
    exact absurd h (by simp)
  · rw [if_neg h1] at h
    by_cases h2 : (op == "") = true
    · rw [if_pos h2] at h
      exact absurd h (by simp)
    · rw [if_neg h2] at h
      injection h with h'
      rw [← h']

theorem collectFilesList_mem (l : List (String × Folder)) (nm : String) (f : Folder)
    (hmem : (nm, f) ∈ l) (fr : FileReference) (hfr : fr ∈ f.collect_files) :
    fr ∈ collectFilesList l := by
  induction l with
  | nil => cases hmem
  | cons p rest ih =>
    rw [collectFilesList.eq_def]
    obtain ⟨pn, pf⟩ := p
    rcases List.mem_cons.1 hmem with heq | hmem'
    · injection heq with e1 e2
      subst e2
      exact List.mem_append.2 (Or.inl hfr)
    · exact List.mem_append.2 (Or.inr (ih hmem'))

theorem collect_files_of_walk (parts : List String) (f g : Folder)
    (hw : f.walk parts = .ok g) (fr : FileReference)
    (hfr : fr ∈ g.files.map (·.2)) : fr ∈ f.collect_files := by
  induction parts generalizing f with
  | nil =>
    rw [Folder.walk] at hw
    injection hw with hg
    subst hg
    obtain ⟨i, n, cd, pid, subs, fls⟩ := f
    rw [Folder.collect_files.eq_def]
    exact List.mem_append.2 (Or.inl hfr)
  | cons part rest ih =>
    rw [Folder.walk] at hw
    cases hg : PyDict.get? f.subfolders part with
    | none =>
      rw [hg] at hw
      exact absurd hw (by simp)
    | some sub =>
      rw [hg] at hw
      dsimp only at hw
      have hsub := ih sub hw
      have hpm := pydict_get?_mem _ _ _ hg
      obtain ⟨i, n, cd, pid, subs, fls⟩ := f
      rw [Folder.collect_files.eq_def]
      exact List.mem_append.2 (Or.inr (collectFilesList_mem _ _ _ hpm fr hsub))


/-- Removing a file at the folder addressed by `parts_s` leaves every other
resolvable folder with the same file list and the same subfolder names. -/
theorem walk_after_remove_file (n : String) : ∀ (parts_s parts_d : List String)
    (f f₁ : Folder) (orig : FileReference) (df : Folder),
    f.applyAt parts_s (fun x => x.remove_file n) = some (f₁, .ok orig) →
    parts_d ≠ parts_s →
    f.walk parts_d = .ok df →
    ∃ df₁, f₁.walk parts_d = .ok df₁ ∧
      df₁.files = df.files ∧
      PyDict.keys df₁.subfolders = PyDict.keys df.subfolders
  | [], parts_d, f, f₁, orig, df => by
    intro happ hne hwd
    rw [Folder.applyAt] at happ
    injection happ with happ'
    have hsh : f₁ = f.withFiles (PyDict.del f.files n) := by
      rw [Folder.remove_file] at happ'
      cases hg : PyDict.get? f.files n with
      | none =>
        rw [hg] at happ'
        exact absurd (congrArg Prod.snd happ') (by simp)
      | some v =>
        rw [hg] at happ'
        have h1 := congrArg Prod.fst happ'
        simpa using h1.symm
    subst hsh
    cases parts_d with
    | nil => exact absurd rfl hne
    | cons q qs =>
      rw [Folder.walk] at hwd
      cases hq : PyDict.get? f.subfolders q with
      | none =>
        rw [hq] at hwd
        exact absurd hwd (by simp)
      | some sq =>
        rw [hq] at hwd
        dsimp only at hwd
        refine ⟨df, ?_, rfl, rfl⟩
        rw [Folder.walk, Folder.withFiles_subfolders, hq]
        exact hwd
  | a :: as, parts_d, f, f₁, orig, df => by
    intro happ hne hwd
    rw [Folder.applyAt] at happ
    cases hga : PyDict.get? f.subfolders a with
    | none =>
      rw [hga] at happ
      exact absurd happ (by simp)
    | some sub =>
      rw [hga] at happ
      dsimp only at happ
      cases hsub : sub.applyAt as (fun x => x.remove_file n) with
      | none =>
        rw [hsub] at happ
        exact absurd happ (by simp)
      | some pr =>
        obtain ⟨sub', b⟩ := pr
        rw [hsub] at happ
        dsimp only at happ
        injection happ with happ'
        have hf₁ : f₁ = f.withSubfolders (PyDict.set f.subfolders a sub') := by
          have h1 := congrArg Prod.fst happ'
          simpa using h1.symm
        have hb : b = .ok orig := by
          have h1 := congrArg Prod.snd happ'
          simpa using h1
        subst hf₁
        rw [hb] at hsub
        cases parts_d with
        | nil =>
          rw [Folder.walk] at hwd
          injection hwd with hdf
          refine ⟨f.withSubfolders (PyDict.set f.subfolders a sub'), ?_, ?_, ?_⟩
          · rw [Folder.walk]
          · rw [Folder.withSubfolders_files, hdf]
          · rw [Folder.withSubfolders_subfolders,
                pydict_keys_set_of_contains _ _ _
                  (PyDict.contains_of_get?_eq_some _ _ _ hga), hdf]
        | cons q qs =>
          by_cases hqa : q = a
          · subst hqa
            rw [Folder.walk, hga] at hwd
            dsimp only at hwd
            have hne' : qs ≠ as := by
              intro hc
              exact hne (by rw [hc])
            obtain ⟨df₁, hw₁, hfe, hke⟩ :=
              walk_after_remove_file n as qs sub sub' orig df hsub hne' hwd
            refine ⟨df₁, ?_, hfe, hke⟩
            rw [Folder.walk, Folder.withSubfolders_subfolders, PyDict.get?_set_self]
            exact hw₁
          · rw [Folder.walk] at hwd
            cases hq : PyDict.get? f.subfolders q with
            | none =>
              rw [hq] at hwd
              exact absurd hwd (by simp)
            | some sq =>
              rw [hq] at hwd
              dsimp only at hwd
              refine ⟨df, ?_, rfl, rfl⟩
              rw [Folder.walk, Folder.withSubfolders_subfolders,
                  PyDict.get?_set_ne _ _ _ _ hqa, hq]
              exact hwd

/-- Removing the subfolder `n` at the folder addressed by `parts_s` leaves
every other resolvable folder that is not inside the removed subtree with
the same file list and the same subfolder names. -/
theorem walk_after_remove_subfolder (n : String) : ∀ (parts_s parts_d : List String)
    (f f₁ moved : Folder) (df : Folder),
    f.applyAt parts_s (fun x => x.remove_subfolder n) = some (f₁, .ok moved) →
    parts_d ≠ parts_s →
    ¬ (parts_s ++ [n]) <+: parts_d →
    f.walk parts_d = .ok df →
    ∃ df₁, f₁.walk parts_d = .ok df₁ ∧
      df₁.files = df.files ∧
      PyDict.keys df₁.subfolders = PyDict.keys df.subfolders
  | [], parts_d, f, f₁, moved, df => by
    intro happ hne hnp hwd
    rw [Folder.applyAt] at happ
    injection happ with happ'
    have hsh : f₁ = f.withSubfolders (PyDict.del f.subfolders n) := by
      rw [Folder.remove_subfolder] at happ'
      cases hg : PyDict.get? f.subfolders n with
      | none =>
        rw [hg] at happ'
        exact absurd (congrArg Prod.snd happ') (by simp)
      | some v =>
        rw [hg] at happ'
        have h1 := congrArg Prod.fst happ'
        simpa using h1.symm
    subst hsh
    cases parts_d with
    | nil => exact absurd rfl hne
    | cons q qs =>
      have hqn : q ≠ n := by
        intro hc
        subst hc
        exact hnp ⟨qs, rfl⟩
      rw [Folder.walk] at hwd
      cases hq : PyDict.get? f.subfolders q with
      | none =>
        rw [hq] at hwd
        exact absurd hwd (by simp)
      | some sq =>
        rw [hq] at hwd
        dsimp only at hwd
        refine ⟨df, ?_, rfl, rfl⟩
        rw [Folder.walk, Folder.withSubfolders_subfolders,
            PyDict.get?_del_ne _ _ _ hqn, hq]
        exact hwd
  | a :: as, parts_d, f, f₁, moved, df => by
    intro happ hne hnp hwd
    rw [Folder.applyAt] at happ
    cases hga : PyDict.get? f.subfolders a with
    | none =>
      rw [hga] at happ
      exact absurd happ (by simp)
    | some sub =>
      rw [hga] at happ
      dsimp only at happ
      cases hsub : sub.applyAt as (fun x => x.remove_subfolder n) with
      | none =>
        rw [hsub] at happ
        exact absurd happ (by simp)
      | some pr =>
        obtain ⟨sub', b⟩ := pr
        rw [hsub] at happ
        dsimp only at happ
        injection happ with happ'
        have hf₁ : f₁ = f.withSubfolders (PyDict.set f.subfolders a sub') := by
          have h1 := congrArg Prod.fst happ'
          simpa using h1.symm
        have hb : b = .ok moved := by
          have h1 := congrArg Prod.snd happ'
          simpa using h1
        subst hf₁
        rw [hb] at hsub
        cases parts_d with
        | nil =>
          rw [Folder.walk] at hwd
          injection hwd with hdf
          refine ⟨f.withSubfolders (PyDict.set f.subfolders a sub'), ?_, ?_, ?_⟩
          · rw [Folder.walk]
          · rw [Folder.withSubfolders_files, hdf]
          · rw [Folder.withSubfolders_subfolders,
                pydict_keys_set_of_contains _ _ _
                  (PyDict.contains_of_get?_eq_some _ _ _ hga), hdf]
        | cons q qs =>
          by_cases hqa : q = a
          · subst hqa
            rw [Folder.walk, hga] at hwd
            dsimp only at hwd
            have hne' : qs ≠ as := by
              intro hc
              exact hne (by rw [hc])
            have hnp' : ¬ (as ++ [n]) <+: qs := by
              intro hc
              exact hnp (by
                show (q :: (as ++ [n])) <+: q :: qs
                exact (List.cons_prefix_cons).2 ⟨rfl, hc⟩)
            obtain ⟨df₁, hw₁, hfe, hke⟩ :=
              walk_after_remove_subfolder n as qs sub sub' moved df hsub hne' hnp' hwd
            refine ⟨df₁, ?_, hfe, hke⟩
            rw [Folder.walk, Folder.withSubfolders_subfolders, PyDict.get?_set_self]
            exact hw₁
          · rw [Folder.walk] at hwd
            cases hq : PyDict.get? f.subfolders q with
            | none =>
              rw [hq] at hwd
              exact absurd hwd (by simp)
            | some sq =>
              rw [hq] at hwd
              dsimp only at hwd
              refine ⟨df, ?_, rfl, rfl⟩
              rw [Folder.walk, Folder.withSubfolders_subfolders,
                  PyDict.get?_set_ne _ _ _ _ hqa, hq]
              exact hwd


theorem applyAt_walk_inv : ∀ (parts : List String) (f f' : Folder)
    (g : Folder → Folder × β) (b : β),
    f.applyAt parts g = some (f', b) →
    ∃ x, f.walk parts = .ok x ∧ b = (g x).2 ∧ f'.walk parts = .ok ((g x).1)
  | [], f, f', g, b => by
    intro h
    rw [Folder.applyAt] at h
    injection h with h'
    have h1 : f' = (g f).1 := by
      have := congrArg Prod.fst h'
      simpa using this.symm
    have h2 : b = (g f).2 := by
      have := congrArg Prod.snd h'
      simpa using this.symm
    subst h1
    refine ⟨f, ?_, h2, ?_⟩
    · rw [Folder.walk]
    · rw [Folder.walk]
  | part :: rest, f, f', g, b => by
    intro h
    rw [Folder.applyAt] at h
    cases hg : PyDict.get? f.subfolders part with
    | none =>
      rw [hg] at h
      exact absurd h (by simp)
    | some sub =>
      rw [hg] at h
      dsimp only at h
      cases hsub : sub.applyAt rest g with
      | none =>
        rw [hsub] at h
        exact absurd h (by simp)
      | some pr =>
        obtain ⟨sub', b'⟩ := pr
        rw [hsub] at h
        dsimp only at h
        injection h with h'
        have h1 : f' = f.withSubfolders (PyDict.set f.subfolders part sub') := by
          have := congrArg Prod.fst h'
          simpa using this.symm
        have h2 : b' = b := by
          have := congrArg Prod.snd h'
          simpa using this
        subst h1
        subst h2
        obtain ⟨x, hwx, hbx, hwx'⟩ := applyAt_walk_inv rest sub sub' g b' hsub
        refine ⟨x, ?_, hbx, ?_⟩
        · rw [Folder.walk, hg]
          exact hwx
        · rw [Folder.walk, Folder.withSubfolders_subfolders, PyDict.get?_set_self]
          exact hwx'

theorem applyAtPath_inv (p : Project) (path : String) (g : Folder → Folder × β)
    (p' : Project) (b : β) (h : p.applyAtPath path g = some (p', b)) :
    ∃ root', p.root_folder.applyAt (pathParts path) g = some (root', b) ∧
      p' = { p with root_folder := root' } := by
  rw [Project.applyAtPath] at h
  cases ha : p.root_folder.applyAt (pathParts path) g with
  | none =>
    rw [ha] at h
    exact absurd h (by simp)
  | some pr =>
    obtain ⟨root', b'⟩ := pr
    rw [ha] at h
    dsimp only at h
    injection h with h'
    have h1 : p' = { p with root_folder := root' } := by
      have := congrArg Prod.fst h'
      simpa using this.symm
    have h2 : b' = b := by
      have := congrArg Prod.snd h'
      simpa using this
    subst h2
    exact ⟨root', rfl, h1⟩

theorem add_file_ok_inv (f : Folder) (fr : FileReference)
    (h : (f.add_file fr).2 = none) :
    (f.add_file fr).1 = f.withFiles (PyDict.set f.files fr.name fr) := by
  rw [Folder.add_file] at h ⊢
  by_cases h1 : PyDict.contains f.files fr.name = true
  · rw [if_pos h1] at h
    exact absurd h (by simp)
  · rw [if_neg h1] at h ⊢
    by_cases h2 : PyDict.contains f.subfolders fr.name = true
    · rw [if_pos h2] at h
      exact absurd h (by simp)
    · rw [if_neg h2]

/-! ### C9: copy mints a new id and copies metadata; move preserves the id -/

/-- C9: (a) a successful `Project.copy_file` returns a reference whose
identifier is the freshly minted one and therefore differs from the source
reference's identifier (`uuid4` freshness is the hypothesis that the new id
is not among the project's file ids); (b) on the metadata heap, the
`metadata.copy()` bound to the fresh reference has equal contents, and
mutating the copy's metadata through `update_metadata` leaves the
original's metadata unchanged; (c) a successful `Project.move_item` of a
file inserts at the destination the very `FileReference` removed from the
source — the identifier is preserved. -/
theorem c9_copy_fresh_id_move_preserves_id :
    (∀ (p : Project) (src fname dst : String) (new_name : Option String)
       (fresh now : String) (p' : Project) (copied : FileReference)
       (sf : Folder) (orig : FileReference),
      p.get_folder_by_path src = .ok sf →
      PyDict.get? sf.files fname = some orig →
      fresh ∉ (p.get_all_file_references).map (·.id) →
      p.copy_file src fname dst new_name fresh now = (p', .ok copied) →
      copied.id = fresh ∧ copied.id ≠ orig.id) ∧
    (∀ (σ : MetaHeap) (src fresh : Nat) (kwargs : List (String × String)),
      fresh ∉ σ.map (·.1) →
      src ∈ σ.map (·.1) →
      heapGet (heapAllocCopy σ src fresh) fresh = heapGet σ src ∧
      heapGet (update_metadata (heapAllocCopy σ src fresh) fresh kwargs) src
        = heapGet σ src) ∧
    (∀ (p : Project) (src n dst now : String) (sf : Folder)
       (orig : FileReference) (res : Project),
      p.get_folder_by_path src = .ok sf →
      PyDict.get? sf.files n = some orig →
      PyDict.contains sf.subfolders n = false →
      orig.name = n →
      p.move_item src n dst now = (res, none) →
      ∃ df', res.get_folder_by_path dst = .ok df' ∧
        PyDict.get? df'.files n = some orig) := by
  refine ⟨?_, ?_, ?_⟩
  · intro p src fname dst new_name fresh now p' copied sf orig hres hfile hfresh hcopy
    have horig : orig.id ∈ (p.get_all_file_references).map (·.id) := by
      refine List.mem_map.2 ⟨orig, ?_, rfl⟩
      rw [get_folder_by_path_eq_walk] at hres
      exact collect_files_of_walk _ _ _ hres orig
        (List.mem_map.2 ⟨(fname, orig), pydict_get?_mem _ _ _ hfile, rfl⟩)
    rw [Project.copy_file, hres] at hcopy
    dsimp only at hcopy
    cases hdst : p.get_folder_by_path dst with
    | error e =>
      rw [hdst] at hcopy
      exact absurd (congrArg Prod.snd hcopy) (by simp)
    | ok df =>
      rw [hdst] at hcopy
      dsimp only at hcopy
      rw [hfile] at hcopy
      dsimp only at hcopy
      cases hmk : FileReference.make fresh (new_name.getD fname) orig.original_path
          orig.relative_path orig.file_type orig.size_bytes orig.imported_date
          now orig.metadata with
      | error e =>
        rw [hmk] at hcopy
        exact absurd (congrArg Prod.snd hcopy) (by simp)
      | ok c =>
        rw [hmk] at hcopy
        dsimp only at hcopy
        cases happ : p.applyAtPath dst (fun f => f.add_file c) with
        | none =>
          rw [happ] at hcopy
          exact absurd (congrArg Prod.snd hcopy) (by simp)
        | some pr =>
          obtain ⟨p2, b⟩ := pr
          rw [happ] at hcopy
          cases b with
          | none =>
            dsimp only at hcopy
            have hc : c = copied := by
              have := congrArg Prod.snd hcopy
              simpa using this
            subst hc
            have hid : c.id = fresh := make_ok_id _ _ _ _ _ _ _ _ _ _ hmk
            refine ⟨hid, ?_⟩
            rw [hid]
            intro hc2
            rw [hc2] at hfresh
            exact hfresh horig
          | some e =>
            dsimp only at hcopy
            exact absurd (congrArg Prod.snd hcopy) (by simp)
  · intro σ src fresh kwargs hfresh hsrc
    have hne : fresh ≠ src := fun hc => hfresh (hc ▸ hsrc)
    constructor
    · rw [heapAllocCopy, heapGet, List.find?_cons_of_pos _ (by simp)]
    · rw [update_metadata, heapAllocCopy, heapSet, heapGet]
      rw [List.map_cons, if_pos (by simp)]
      have hmap : ∀ d' : List (String × String),
          σ.map (fun p => if p.1 == fresh then (fresh, d') else p) = σ := by
        intro d'
        conv_rhs => rw [← List.map_id σ]
        apply List.map_congr_left
        intro p hp
        have hnp : ¬ p.1 = fresh := fun hc => hfresh (List.mem_map.2 ⟨p, hp, hc⟩)
        rw [if_neg (by simpa using hnp)]
        rfl
      rw [hmap]
      rw [List.find?_cons_of_neg _ (by simpa using hne)]
      rw [heapGet]
  · intro p src n dst now sf orig res hres hfile hnsub hname hmove
    rw [Project.move_item, hres] at hmove
    dsimp only at hmove
    cases hdst : p.get_folder_by_path dst with
    | error e =>
      rw [hdst] at hmove
      exact absurd (congrArg Prod.snd hmove) (by simp)
    | ok df =>
      rw [hdst] at hmove
      dsimp only at hmove
      rw [if_neg (by rw [hnsub]; exact Bool.false_ne_true),
          if_pos (PyDict.contains_of_get?_eq_some _ _ _ hfile)] at hmove
      obtain ⟨f₁, happ1, hwalk1⟩ :=
        applyAtPath_of_get p src sf (fun f => f.remove_file n) hres
      rw [remove_file_spec sf n orig hfile] at happ1 hwalk1
      rw [happ1] at hmove
      dsimp only at hmove
      cases happ2 : Project.applyAtPath { p with root_folder := f₁ } dst
          (fun f => f.add_file orig) with
      | none =>
        rw [happ2] at hmove
        exact absurd (congrArg Prod.snd hmove) (by simp)
      | some pr =>
        obtain ⟨p2, b⟩ := pr
        rw [happ2] at hmove
        cases b with
        | some e =>
          dsimp only at hmove
          exact absurd (congrArg Prod.snd hmove) (by simp)
        | none =>
          dsimp only at hmove
          obtain ⟨root', ha, hp2⟩ := applyAtPath_inv _ _ _ _ _ happ2
          obtain ⟨x, hwx, hbx, hwx'⟩ := applyAt_walk_inv _ _ _ _ _ ha
          have hadd := add_file_ok_inv x orig hbx.symm
          have hres' :
              res = { p with root_folder := root', last_modified := now } := by
            have h9 := congrArg Prod.fst hmove
            simp only at h9
            rw [← h9, hp2]
          refine ⟨(x.add_file orig).1, ?_, ?_⟩
          · rw [hres', get_folder_by_path_eq_walk]
            exact hwx'
          · rw [hadd, Folder.withFiles_files, ← hname]
            exact PyDict.get?_set_self _ _ _

/-- Witness for C9: on the concrete one-cell heap `[(0, [("k","v")])]`,
allocating the copy at fresh address 1 and then updating the copy's
metadata leaves the original cell's contents unchanged. -/
theorem c9_copy_fresh_id_move_preserves_id_witness :
    (1 ∉ ([(0, [("k","v")])] : MetaHeap).map (·.1)) ∧
    (0 ∈ ([(0, [("k","v")])] : MetaHeap).map (·.1)) ∧
    (heapGet (heapAllocCopy [(0, [("k","v")])] 0 1) 1
       = heapGet [(0, [("k","v")])] 0 ∧
     heapGet (update_metadata (heapAllocCopy [(0, [("k","v")])] 0 1) 1
         [("k","w")]) 0
       = heapGet [(0, [("k","v")])] 0) :=
  ⟨by decide, by decide,
    c9_copy_fresh_id_move_preserves_id.2.1 [(0, [("k","v")])] 0 1 [("k","w")]
      (by decide) (by decide)⟩

/-! ### C10: move_item is not atomic on a destination duplicate -/

/-- C10: `Project.move_item` is not atomic on failure: when the source
folder holds an item named `n` and the destination folder already has a
child (of either kind) named `n`, the removal from the source succeeds and
the destination insert raises `DuplicateNameError`, so the call returns the
pre-move project with only the removal applied — the item is gone from the
source folder, the destination folder keeps its files and child-name set
unchanged (the item lands in neither folder), and `last_modified` is not
updated.  First conjunct: the moved item is a file; second conjunct: it is
a subfolder, for a destination path that is distinct from the source and
not inside the moved subtree. -/
theorem c10_move_nonatomic_duplicate :
    (∀ (p : Project) (src n dst now : String) (sf df : Folder)
       (orig : FileReference),
      p.get_folder_by_path src = .ok sf →
      p.get_folder_by_path dst = .ok df →
      PyDict.contains sf.subfolders n = false →
      PyDict.get? sf.files n = some orig →
      orig.name = n →
      (PyDict.contains df.files n = true ∨
       PyDict.contains df.subfolders n = true) →
      pathParts dst ≠ pathParts src →
      ∃ f₁,
        p.move_item src n dst now
          = ({ p with root_folder := f₁ }, some .duplicateNameError) ∧
        (p.move_item src n dst now).1.last_modified = p.last_modified ∧
        (∃ sf₁, f₁.walk (pathParts src) = .ok sf₁ ∧
          PyDict.get? sf₁.files n = none) ∧
        (∃ df₁, f₁.walk (pathParts dst) = .ok df₁ ∧
          df₁.files = df.files ∧
          PyDict.keys df₁.subfolders = PyDict.keys df.subfolders)) ∧
    (∀ (p : Project) (src n dst now : String) (sf df sub : Folder),
      p.get_folder_by_path src = .ok sf →
      p.get_folder_by_path dst = .ok df →
      PyDict.get? sf.subfolders n = some sub →
      sub.name = n →
      (PyDict.contains df.files n = true ∨
       PyDict.contains df.subfolders n = true) →
      pathParts dst ≠ pathParts src →
      ¬ (pathParts src ++ [n]) <+: pathParts dst →
      ∃ f₁,
        p.move_item src n dst now
          = ({ p with root_folder := f₁ }, some .duplicateNameError) ∧
        (p.move_item src n dst now).1.last_modified = p.last_modified ∧
        (∃ sf₁, f₁.walk (pathParts src) = .ok sf₁ ∧
          PyDict.get? sf₁.subfolders n = none) ∧
        (∃ df₁, f₁.walk (pathParts dst) = .ok df₁ ∧
          df₁.files = df.files ∧
          PyDict.keys df₁.subfolders = PyDict.keys df.subfolders)) := by
  constructor
  · intro p src n dst now sf df orig hsrc hdst hnsub hfile hname hdup hne
    have hsrcW : p.root_folder.walk (pathParts src) = .ok sf := by
      rw [← get_folder_by_path_eq_walk]; exact hsrc
    have hdstW : p.root_folder.walk (pathParts dst) = .ok df := by
      rw [← get_folder_by_path_eq_walk]; exact hdst
    obtain ⟨f₁, happ1, hwalk1⟩ :=
      walk_applyAt (pathParts src) p.root_folder sf (fun f => f.remove_file n) hsrcW
    rw [remove_file_spec sf n orig hfile] at happ1 hwalk1
    have happ1' : p.root_folder.applyAt (pathParts src) (fun f => f.remove_file n)
        = some (f₁, .ok orig) := happ1
    have hwalk1' : f₁.walk (pathParts src)
        = .ok (sf.withFiles (PyDict.del sf.files n)) := hwalk1
    obtain ⟨df₁, hwd, hdff, hdfk⟩ :=
      walk_after_remove_file n (pathParts src) (pathParts dst) p.root_folder f₁ orig df
        happ1' hne hdstW
    have hdup' : df₁.add_file orig = (df₁, some .duplicateNameError) := by
      apply add_file_dup
      rw [hname]
      rcases hdup with h | h
      · left; rw [hdff]; exact h
      · right
        exact (PyDict.contains_iff_mem_keys _ _).2
          (hdfk ▸ (PyDict.contains_iff_mem_keys _ _).1 h)
    obtain ⟨f₂, happ2, hwalk2⟩ :=
      walk_applyAt (pathParts dst) f₁ df₁ (fun f => f.add_file orig) hwd
    rw [hdup'] at happ2
    have happ2' : f₁.applyAt (pathParts dst) (fun f => f.add_file orig)
        = some (f₂, some .duplicateNameError) := happ2
    have happP : p.applyAtPath src (fun f => f.remove_file n)
        = some ({ p with root_folder := f₁ }, .ok orig) := by
      rw [Project.applyAtPath, happ1']
    have happP2 : Project.applyAtPath { p with root_folder := f₁ } dst
          (fun f => f.add_file orig)
        = some ({ p with root_folder := f₂ }, some .duplicateNameError) := by
      rw [Project.applyAtPath]
      dsimp only
      rw [happ2']
    have heq : p.move_item src n dst now
        = ({ p with root_folder := f₁ }, some .duplicateNameError) := by
      rw [Project.move_item, hsrc]
      dsimp only
      rw [hdst]
      dsimp only
      rw [if_neg (by rw [hnsub]; exact Bool.false_ne_true),
          if_pos (PyDict.contains_of_get?_eq_some _ _ _ hfile)]
      rw [happP]
      dsimp only
      rw [happP2]
    refine ⟨f₁, heq, by rw [heq], ⟨_, hwalk1', ?_⟩, ⟨df₁, hwd, hdff, hdfk⟩⟩
    rw [Folder.withFiles_files]
    exact pydict_get?_del_self _ _
  · intro p src n dst now sf df sub hsrc hdst hget hname hdup hne hnpfx
    have hsrcW : p.root_folder.walk (pathParts src) = .ok sf := by
      rw [← get_folder_by_path_eq_walk]; exact hsrc
    have hdstW : p.root_folder.walk (pathParts dst) = .ok df := by
      rw [← get_folder_by_path_eq_walk]; exact hdst
    obtain ⟨f₁, happ1, hwalk1⟩ :=
      walk_applyAt (pathParts src) p.root_folder sf
        (fun f => f.remove_subfolder n) hsrcW
    rw [remove_subfolder_spec sf n sub hget] at happ1 hwalk1
    have happ1' : p.root_folder.applyAt (pathParts src)
          (fun f => f.remove_subfolder n)
        = some (f₁, .ok (sub.withParent none)) := happ1
    have hwalk1' : f₁.walk (pathParts src)
        = .ok (sf.withSubfolders (PyDict.del sf.subfolders n)) := hwalk1
    obtain ⟨df₁, hwd, hdff, hdfk⟩ :=
      walk_after_remove_subfolder n (pathParts src) (pathParts dst) p.root_folder f₁
        (sub.withParent none) df happ1' hne hnpfx hdstW
    have hdup' : df₁.add_subfolder (sub.withParent none)
        = (df₁, some .duplicateNameError) := by
      apply add_subfolder_dup
      rw [Folder.withParent_name, hname]
      rcases hdup with h | h
      · right; rw [hdff]; exact h
      · left
        exact (PyDict.contains_iff_mem_keys _ _).2
          (hdfk ▸ (PyDict.contains_iff_mem_keys _ _).1 h)
    obtain ⟨f₂, happ2, hwalk2⟩ :=
      walk_applyAt (pathParts dst) f₁ df₁
        (fun f => f.add_subfolder (sub.withParent none)) hwd
    rw [hdup'] at happ2
    have happ2' : f₁.applyAt (pathParts dst)
          (fun f => f.add_subfolder (sub.withParent none))
        = some (f₂, some .duplicateNameError) := happ2
    have happP : p.applyAtPath src (fun f => f.remove_subfolder n)
        = some ({ p with root_folder := f₁ }, .ok (sub.withParent none)) := by
      rw [Project.applyAtPath, happ1']
    have happP2 : Project.applyAtPath { p with root_folder := f₁ } dst
          (fun f => f.add_subfolder (sub.withParent none))
        = some ({ p with root_folder := f₂ }, some .duplicateNameError) := by
      rw [Project.applyAtPath]
      dsimp only
      rw [happ2']
    have heq : p.move_item src n dst now
        = ({ p with root_folder := f₁ }, some .duplicateNameError) := by
      rw [Project.move_item, hsrc]
      dsimp only
      rw [hdst]
      dsimp only
      rw [if_pos (PyDict.contains_of_get?_eq_some _ _ _ hget)]
      rw [happP]
      dsimp only
      rw [happP2]
    refine ⟨f₁, heq, by rw [heq], ⟨_, hwalk1', ?_⟩, ⟨df₁, hwd, hdff, hdfk⟩⟩
    rw [Folder.withSubfolders_subfolders]
    exact pydict_get?_del_self _ _

/-- Witness for C10: in a concrete project whose folders `A` (source) and
`B` (destination) each hold a file named `x`, moving `x` from `A` to `B`
raises `DuplicateNameError` (with the removal from `A` already applied). -/
theorem c10_move_nonatomic_duplicate_witness :
    pathParts "B" ≠ pathParts "A" ∧
    (Project.move_item
        ⟨"p", "P", "", "1", "d", "d", none,
          Folder.node "r" "Root" "d" none
            [("A", Folder.node "a" "A" "d" (some "r") []
                [("x", ⟨"f1", "x", "/x", "x", "txt", 0, "d", "d", []⟩)]),
             ("B", Folder.node "b" "B" "d" (some "r") []
                [("x", ⟨"f2", "x", "/x", "x", "txt", 0, "d", "d", []⟩)])] []⟩
        "A" "x" "B" "now").2 = some DomainErr.duplicateNameError := by
  refine ⟨by decide, ?_⟩
  obtain ⟨f₁, heq, h2, h3, h4⟩ :=
    c10_move_nonatomic_duplicate.1
      ⟨"p", "P", "", "1", "d", "d", none,
        Folder.node "r" "Root" "d" none
          [("A", Folder.node "a" "A" "d" (some "r") []
              [("x", ⟨"f1", "x", "/x", "x", "txt", 0, "d", "d", []⟩)]),
           ("B", Folder.node "b" "B" "d" (some "r") []
              [("x", ⟨"f2", "x", "/x", "x", "txt", 0, "d", "d", []⟩)])] []⟩
      "A" "x" "B" "now"
      (Folder.node "a" "A" "d" (some "r") []
        [("x", ⟨"f1", "x", "/x", "x", "txt", 0, "d", "d", []⟩)])
      (Folder.node "b" "B" "d" (some "r") []
        [("x", ⟨"f2", "x", "/x", "x", "txt", 0, "d", "d", []⟩)])
      ⟨"f1", "x", "/x", "x", "txt", 0, "d", "d", []⟩
      rfl rfl rfl rfl rfl (Or.inl rfl) (by decide)
  rw [heq]

end Oligotools
